import Mathlib

/-!
Shallow embedding of the state-reconciliation engine of `ledgerx/market_state.py`
(class `MarketState`), restricted to the parts the verified claims touch:
the clocked order-book store (`handle_order` and its helpers), top-of-book
cross-validation (`check_book_top`), the heartbeat ordering check
(`heartbeat_action`), and the position/basis recomputation
(`process_basis_trades`).

Modelling conventions, fixed once here:
* Python dicts keyed by order id (`mid`) become association lists
  `List (Nat × _)` with first-match lookup; dicts keyed by contract id
  become total functions `Nat → _` (a contract id never seen maps to the
  neutral value, matching the lazy `get_book_state` creation of empty dicts).
* Python sets become `Nat → Bool`.
* A Python `assert` failure, `raise`, or `KeyError` from an unconditional
  subscript of an absent key is modelled as `Except.error`; keys the code
  only reads after an `'x' in d` guard become `Option` fields.
* External round trips (`retrieve_contract`, `async_load_books`,
  `load_market`, HTTP fetches) are modelled as `Except.error` markers: no
  theorem below depends on a path that performs an external call, except
  where a claim explicitly treats the reload as an opaque effect
  (`queue_reload_books` only records a per-contract flag, as the code only
  records a pending coroutine).
* Python float division in the in-place basis adjustment (status 201) is
  modelled as integer division; no theorem below depends on that value.
-/

namespace LedgerX

/-- Association-list lookup, first match wins (Python dict subscript). -/
def alookup {α : Type} : List (Nat × α) → Nat → Option α
  | [], _ => none
  | (k, v) :: r, key => if k = key then some v else alookup r key

/-- Association-list insert/replace in place (Python `d[k] = v`). -/
def ainsert {α : Type} : List (Nat × α) → Nat → α → List (Nat × α)
  | [], key, v => [(key, v)]
  | (k, w) :: r, key, v => if k = key then (k, v) :: r else (k, w) :: ainsert r key v

/-- Association-list erase (Python `del d[k]`): removes every binding of the
key; dict states carry each key at most once, so this is the single delete. -/
def aerase {α : Type} : List (Nat × α) → Nat → List (Nat × α)
  | [], _ => []
  | (k, w) :: r, key => if k = key then aerase r key else (k, w) :: aerase r key

/-- Pointwise update of a total-function map. -/
def fupdate {α : Type} (f : Nat → α) (k : Nat) (v : α) : Nat → α :=
  fun n => if n = k then v else f n

/-- One resting order held in a contract's book (`book_order` dicts built in
`insert_new_order`); `hasMpid` records whether the dict carries the `mpid` key. -/
structure BookOrder where
  contract_id : Nat
  price : Int
  size : Int
  is_ask : Bool
  clock : Int
  mid : Nat
  hasMpid : Bool
deriving DecidableEq

/-- The contract fields the embedded code reads: `multiplier` and whether
`derivative_type == 'options_contract'`. -/
structure Contract where
  multiplier : Int
  isOption : Bool
deriving DecidableEq

/-- An incoming `action_report` event.  Fields the code only touches after an
`'x' in order` membership test (or whose absence a claim may exercise) are
`Option`; fields the code dereferences unconditionally on every path that
reaches them are total.  `hasMpid` models `'mpid' in order`. -/
structure Order where
  contract_id : Nat
  mid : Nat
  clock : Int
  status_type : Nat
  is_ask : Bool
  price : Int
  size : Int
  filled_size : Option Int
  filled_price : Option Int
  status_reason : Option Int
  inserted_size : Option Int
  inserted_price : Option Int
  original_size : Option Int
  original_price : Option Int
  hasMpid : Bool
  mpid : Nat
  cid : Nat
  order_type : Nat
  updated_time : Int
deriving DecidableEq

/-- A top-of-book record (stream-delivered or synthetic). -/
structure BookTop where
  contract_id : Nat
  clock : Int
  bid : Option Int
  ask : Option Int
deriving DecidableEq

/-- The last-trade record built by `handle_trade`. -/
structure TradeRec where
  contract_id : Nat
  order_type : Nat
  filled_price : Option Int
  filled_size : Option Int
  timestamp : Int
  side_ask : Bool
  hasMpid : Bool
deriving DecidableEq

/-- A per-contract position; `basis` is `none` while not yet authoritative
(`'basis' not in position`). `isLong` models `position['type'] == 'long'`. -/
structure Position where
  size : Int
  basis : Option Int
  isLong : Bool
deriving DecidableEq

/-- One fetched trade-history entry as read by `process_basis_trades`. -/
structure Trade where
  contract_id : Nat
  sideBid : Bool
  fee : Int
  rebate : Int
  premium : Int
  filled_size : Int
deriving DecidableEq

/-- A heartbeat event. -/
structure Heartbeat where
  ticks : Int
  run_id : Nat
  timestamp : Int
deriving DecidableEq

/-- The `MarketState` fields the embedded operations read or write. -/
structure MState where
  mpid : Option Nat
  cid : Option Nat
  all_my_mids : Nat → Bool
  my_orders : Nat → Bool
  contract_clock : Nat → Option Int
  book_states : Nat → List (Nat × BookOrder)
  last_delete_clock : Nat → Option Int
  book_top : Nat → Option BookTop
  my_out_of_order_orders : Nat → List Order
  async_reloading_books : Nat → Bool
  contract_positions : Nat → Option Position
  to_update_basis : Nat → Bool
  pending_basis : List Nat
  all_contracts : Nat → Option Contract
  last_trade : Nat → Option TradeRec
  action_queue_open : Bool
  last_heartbeat : Option Heartbeat

/-- `MarketState.clear` (lines 53-80): resets the book store, clocks, stash,
positions and heartbeat, keeps `last_trade` (only initialised when `None`),
and does not touch `mpid`, `cid` or `all_my_mids`. -/
def clear (s : MState) : MState :=
  { s with
    contract_positions := fun _ => none
    my_orders := fun _ => false
    contract_clock := fun _ => none
    book_states := fun _ => []
    last_delete_clock := fun _ => none
    async_reloading_books := fun _ => false
    book_top := fun _ => none
    to_update_basis := fun _ => false
    last_heartbeat := none
    my_out_of_order_orders := fun _ => [] }

/-- `MarketState.is_same_0_or_None` (lines 257-262). -/
def is_same_0_or_None (a b : Option Int) : Bool :=
  a == b || (a == none && b == some 0) || (a == some 0 && b == none)

/-- `MarketState.fee` (lines 264-274); `conv_usd = 100`, `//` is Python floor
division, `abs(size)` is `Int.natAbs`. -/
def fee (price : Int) (size : Int) (is_option_contract : Bool) : Int :=
  if is_option_contract then
    let fee_per_contract := Int.fdiv price (5 * 100)
    let fee_per_contract := if fee_per_contract ≥ 15 then 15 else fee_per_contract
    (size.natAbs : Int) * fee_per_contract
  else
    (size.natAbs : Int) * 5

/-- Outcome of the heartbeat checks: `fault` models the raised
`Exception("Irregular heartbeat")`, `reloadMarket` marks the external
`load_market()` triggered by a `run_id` change. -/
inductive HBOutcome where
  | fault
  | reloadMarket
  | ok
deriving DecidableEq

/-- The ordering and run-id checks of `heartbeat_action`
(lines 1554-1565): with a previous heartbeat recorded, `ticks` less than or
equal to the previous value raises; a changed `run_id` triggers a full
reload; otherwise the heartbeat is accepted.  `last_heartbeat` is updated
except on the raising path (the assignment on line 1565 is not reached). -/
def heartbeatCheck (last : Option Heartbeat) (a : Heartbeat) :
    HBOutcome × Option Heartbeat :=
  match last with
  | none => (HBOutcome.ok, some a)
  | some lh =>
    if lh.ticks ≥ a.ticks then (HBOutcome.fault, some lh)
    else if lh.run_id ≠ a.run_id then (HBOutcome.reloadMarket, some a)
    else (HBOutcome.ok, some a)

/-- One step of the basis recomputation loop of `process_basis_trades`
(lines 1819-1833), applied to the running `(pos, basis)` accumulator. -/
def basisStep (acc : Int × Int) (t : Trade) : Int × Int :=
  let pos := acc.1
  let basis := acc.2
  let (basis, pos) :=
    if t.sideBid then (basis + t.fee - t.rebate + t.premium, pos + t.filled_size)
    else (basis + t.fee - t.rebate - t.premium, pos - t.filled_size)
  if pos = 0 then (pos, 0) else (pos, basis)

/-- The final `(pos, basis)` of `process_basis_trades` computed over a list
already in chronological order. -/
def basisFold (trades : List Trade) : Int × Int :=
  trades.foldl basisStep (0, 0)

/-- `MarketState.is_my_order` (lines 427-455): bootstraps `mpid`/`cid` from
the first order carrying an `mpid`, recognises the order through the live
`mpid`, `all_my_mids` or `my_orders`, and records recognised mids (a filled
order with `status_reason` 52 is not re-added to `my_orders`). -/
def is_my_order (s : MState) (o : Order) : Except String (Bool × MState) :=
  match (if s.mpid = none ∧ o.hasMpid then
          if s.cid = none then
            Except.ok { s with mpid := some o.mpid, cid := some o.cid }
          else Except.error "assert self.cid is None"
        else Except.ok s) with
  | Except.error e => Except.error e
  | Except.ok s =>
    let is_it := s.mpid.isSome && o.hasMpid && s.mpid == some o.mpid
    let is_it := is_it || s.all_my_mids o.mid
    let is_it := is_it || s.my_orders o.mid
    if is_it then
      let s :=
        if (o.status_type = 200 ∨ o.status_type = 201 ∨ o.status_type = 204)
            ∧ ¬ s.my_orders o.mid = true then
          if o.status_type = 201 ∧ o.status_reason = some 52 then s
          else { s with my_orders := fupdate s.my_orders o.mid true }
        else s
      let s := { s with all_my_mids := fupdate s.all_my_mids o.mid true }
      Except.ok (true, s)
    else Except.ok (false, s)

/-- `MarketState.insert_new_order` (lines 462-496).  The stored entry keeps
the order's price/size for status 200/204 (asserted equal to the inserted
values); for status 201 it takes the inserted values when `inserted_size` is
non-zero and the original values otherwise. -/
def insert_new_order (s : MState) (o : Order) : Except String MState :=
  let mid := o.mid
  let contract_id := o.contract_id
  if ¬ (o.status_type = 200 ∨ o.status_type = 201 ∨ o.status_type = 204) then
    Except.error "assert status_type in (200, 201, 204)"
  else
    match s.all_contracts contract_id with
    | none => Except.error "KeyError all_contracts"
    | some _ =>
      match is_my_order s o with
      | Except.error e => Except.error e
      | Except.ok (imo, s) =>
        let book_order : BookOrder :=
          ⟨contract_id, o.price, o.size, o.is_ask, o.clock, mid, false⟩
        let book_order :=
          if imo && s.mpid.isSome then { book_order with hasMpid := true } else book_order
        let s :=
          if imo && ! s.my_orders mid then
            { s with my_orders := fupdate s.my_orders mid true }
          else s
        match
          (if o.status_type = 200 ∨ o.status_type = 204 then
            match o.inserted_size, o.inserted_price with
            | some isz, some ipr =>
              if o.size = isz ∧ o.price = ipr then Except.ok book_order
              else Except.error "assert size and price match inserted values"
            | _, _ => Except.error "KeyError inserted_size or inserted_price"
          else
            match o.inserted_size with
            | none => Except.error "KeyError inserted_size"
            | some isz =>
              if isz ≠ 0 then
                match o.inserted_price with
                | none => Except.error "KeyError inserted_price"
                | some ipr => Except.ok { book_order with price := ipr, size := isz }
              else
                match o.original_size, o.original_price with
                | some osz, some opr => Except.ok { book_order with price := opr, size := osz }
                | _, _ => Except.error "KeyError original_size or original_price") with
        | Except.error e => Except.error e
        | Except.ok book_order =>
          let books := ainsert (s.book_states contract_id) mid book_order
          Except.ok { s with book_states := fupdate s.book_states contract_id books }

/-- `MarketState.remove_order` (lines 498-511): deletes the book entry,
moves a recognised own mid from `my_orders` into `all_my_mids`, and records
the delete clock on the contract's book (`book_state['last_delete_clock']`). -/
def remove_order (s : MState) (o : Order) : MState :=
  let mid := o.mid
  let contract_id := o.contract_id
  let books := aerase (s.book_states contract_id) mid
  let s := { s with book_states := fupdate s.book_states contract_id books }
  let s :=
    if s.my_orders mid then
      { s with my_orders := fupdate s.my_orders mid false,
               all_my_mids := fupdate s.all_my_mids mid true }
    else s
  { s with last_delete_clock := fupdate s.last_delete_clock contract_id (some o.clock) }

/-- `MarketState.handle_book_state` (lines 892-910).  The Python merge copies
every key already present in the stored dict from the incoming dict; all
structural fields exist on both sides, while the `mpid` key survives from the
stored entry if and only if it was there (a new `mpid` key is never added),
hence `hasMpid := book_order.hasMpid`. -/
def handle_book_state (s : MState) (contract_id : Nat) (bo : BookOrder) : MState :=
  let books := s.book_states contract_id
  match alookup books bo.mid with
  | some book_order =>
    if bo.clock < book_order.clock then s
    else
      let merged := { bo with hasMpid := book_order.hasMpid }
      { s with book_states := fupdate s.book_states contract_id (ainsert books bo.mid merged) }
  | none =>
    { s with book_states := fupdate s.book_states contract_id (ainsert books bo.mid bo) }

/-- `MarketState.queue_reload_books` (lines 2137-2139): records a pending
per-contract reload coroutine; modelled as a Boolean flag. -/
def queue_reload_books (s : MState) (contract_id : Nat) : MState :=
  if s.async_reloading_books contract_id then s
  else { s with async_reloading_books := fupdate s.async_reloading_books contract_id true }

/-- Lines 536-551 of `replace_existing_order`: the new size kept on the
books and the reload flag, computed from a fill.  With a positive
`filled_size` against a positive stored size, the new size is the stored
size minus `filled_size`, floored at 0 (flagging a reload when negative);
a non-zero disagreement with the event's own size field also flags a
reload; otherwise the event's size stands. -/
def replace_fill_size (o : Order) (stored : BookOrder) : Int × Bool :=
  match o.filled_size with
  | some fs =>
    if fs > 0 ∧ stored.size > 0 then
      let book_new_size := stored.size - fs
      let bn := if book_new_size < 0 then ((0 : Int), true) else (book_new_size, false)
      let need2 := if bn.1 ≠ o.size then (if o.size = 0 then bn.2 else true) else bn.2
      (bn.1, need2)
    else (o.size, false)
  | none => (o.size, false)

/-- Lines 528-579 of `replace_existing_order`, after the ensure-entry step:
gated on the stored clock being at most the event clock, the entry's size is
recomputed (`replace_fill_size`); size 0 removes the entry (reading
`status_reason`, flagging a reload unless it is 52), otherwise the entry is
updated in place via `handle_book_state`; a set flag queues a book reload,
and `is_my_order` runs once more for its side effects (its write goes to a
local copy).  On the other branch the code reads `book_order['ticks']`, a
key never present on stored book orders, which raises `KeyError`. -/
def replace_body (s : MState) (o : Order) : Except String MState :=
  let mid := o.mid
  let contract_id := o.contract_id
  match alookup (s.book_states contract_id) mid with
  | none => Except.error "assert mid in book_state"
  | some stored =>
    match s.all_contracts contract_id with
    | none => Except.error "assert contract_id in all_contracts"
    | some _ =>
      if stored.clock ≤ o.clock then
        let szfl := replace_fill_size o stored
        let new_size := szfl.1
        let need_book_reload := szfl.2
        if new_size ≤ stored.size then
          let book_order := { stored with size := new_size, clock := o.clock }
          match
            (if book_order.size = 0 then
              let s := remove_order s o
              match o.status_reason with
              | none => Except.error "KeyError status_reason"
              | some r => Except.ok (s, if r ≠ 52 then true else need_book_reload)
            else
              Except.ok (handle_book_state s contract_id book_order, need_book_reload)) with
          | Except.error e => Except.error e
          | Except.ok (s, need_book_reload) =>
            let s := if need_book_reload then queue_reload_books s contract_id else s
            match is_my_order s o with
            | Except.error e => Except.error e
            | Except.ok (_, s) => Except.ok s
        else Except.error "assert new_size at most book size"
      else Except.error "KeyError ticks"

/-- `MarketState.replace_existing_order` (lines 513-579): asserts a
fill/cancel-replace status, inserts the order first when it is not yet
tracked (lines 524-527), then runs `replace_body`. -/
def replace_existing_order (s : MState) (o : Order) : Except String MState :=
  if ¬ (o.status_type = 201 ∨ o.status_type = 204) then
    Except.error "assert status_type in (201, 204)"
  else
    match (if (alookup (s.book_states o.contract_id) o.mid).isSome then Except.ok s
           else insert_new_order s o) with
    | Except.error e => Except.error e
    | Except.ok s => replace_body s o

/-- The loop body of `get_top_from_book_state` (lines 787-804): running
maximum clock, best bid (max non-ask price) and best ask (min ask price),
with the `assert(mid == book['mid'])` of line 794. -/
def topFold : List (Nat × BookOrder) → Int × Option Int × Option Int →
    Except String (Int × Option Int × Option Int)
  | [], acc => Except.ok acc
  | (m, book) :: rest, (clock, bid, ask) =>
    let clock := if clock < book.clock then book.clock else clock
    if m ≠ book.mid then Except.error "assert mid equals book mid"
    else
      if book.is_ask then
        let ask := match ask with
          | none => some book.price
          | some a => if a > book.price then some book.price else some a
        topFold rest (clock, bid, ask)
      else
        let bid := match bid with
          | none => some book.price
          | some b => if b < book.price then some book.price else some b
        topFold rest (clock, bid, ask)

/-- `MarketState.get_top_from_book_state` (lines 773-808), at its only use in
`handle_order` (line 766): `exclude_self` is `False` there and is omitted.
The special `last_delete_clock` dict entry contributes only to the maximum
clock (the loop reads its clock before the `continue`); folding it in first
is equivalent because the maximum is iteration-order independent. -/
def get_top_from_book_state (s : MState) (contract_id : Nat) : Except String BookTop :=
  match s.all_contracts contract_id with
  | none => Except.error "external: retrieve_contract"
  | some _ =>
    let clock0 : Int := -1
    let clock0 :=
      match s.last_delete_clock contract_id with
      | some c => if clock0 < c then c else clock0
      | none => clock0
    match topFold (s.book_states contract_id) (clock0, none, none) with
    | Except.error e => Except.error e
    | Except.ok (clock, bid, ask) => Except.ok ⟨contract_id, clock, bid, ask⟩

/-- `MarketState.check_book_top` (lines 848-890): a strictly newer clock
replaces the stored top, an older one keeps it, and on an equal clock the
stored top is kept while `matches` records the same-or-zero-or-absent
comparison of both sides (it is also cleared when the contract clock lags the
top's clock, line 853-857). -/
def check_book_top (s : MState) (nt : BookTop) : BookTop × Bool × MState :=
  let contract_id := nt.contract_id
  let clock := nt.clock
  let matchesB :=
    match s.contract_clock contract_id with
    | some k => if k < clock then false else true
    | none => true
  match s.book_top contract_id with
  | none =>
    (nt, matchesB, { s with book_top := fupdate s.book_top contract_id (some nt) })
  | some ot =>
    if ot.clock < clock then
      (nt, matchesB, { s with book_top := fupdate s.book_top contract_id (some nt) })
    else if ot.clock > clock then
      (ot, matchesB, s)
    else
      let matchesB := if is_same_0_or_None nt.ask ot.ask then matchesB else false
      let matchesB := if is_same_0_or_None nt.bid ot.bid then matchesB else false
      (ot, matchesB, s)

/-- `MarketState.handle_trade` (lines 2086-2103): builds the last-trade
record (calling `is_my_order` to fill in a missing `mpid`) and stores it when
strictly newer than the recorded one. -/
def handle_trade (s : MState) (o : Order) : Except String MState :=
  let contract_id := o.contract_id
  match s.all_contracts contract_id with
  | none => Except.error "KeyError all_contracts"
  | some _ =>
    match o.filled_price, o.filled_size with
    | some fp, some fs =>
      match (if o.hasMpid then Except.ok (true, s) else is_my_order s o) with
      | Except.error e => Except.error e
      | Except.ok (hasM, s) =>
        let test : TradeRec :=
          ⟨contract_id, o.order_type, some fp, some fs, o.updated_time, o.is_ask, hasM⟩
        match s.last_trade contract_id with
        | none => Except.ok { s with last_trade := fupdate s.last_trade contract_id (some test) }
        | some last =>
          if test.timestamp > last.timestamp then
            Except.ok { s with last_trade := fupdate s.last_trade contract_id (some test) }
          else Except.ok s
    | _, _ => Except.error "KeyError filled_price or filled_size"

/-- The own-order position adjustment on a fill (lines 716-738): size moves
by `filled_size` per side immediately; a known basis is adjusted in place
(Python float division modelled as integer division; no theorem depends on
the value); an unknown basis schedules a delayed recomputation. -/
def position_update_201 (s : MState) (o : Order) (c : Contract) : Except String MState :=
  match o.filled_size, o.filled_price with
  | some delta_pos, some fp =>
    match s.contract_positions o.contract_id with
    | none => Except.ok s
    | some position =>
      let adj := delta_pos * fp / c.multiplier
      let f := fee fp delta_pos c.isOption
      let position2 :=
        if o.is_ask then
          { position with size := position.size - delta_pos,
                          basis := position.basis.map (fun b => b + adj - f) }
        else
          { position with size := position.size + delta_pos,
                          basis := position.basis.map (fun b => b - (adj + f)) }
      let cp := fupdate s.contract_positions o.contract_id (some position2)
      let s := { s with contract_positions := cp }
      let s :=
        if position2.basis = none then
          { s with pending_basis := s.pending_basis ++ [o.contract_id] }
        else s
      Except.ok s
  | _, _ => Except.error "KeyError filled_size or filled_price"

/-- The status dispatch of `handle_order` (lines 711-764). -/
def dispatchStatus (s : MState) (o : Order) (imo : Bool) (c : Contract) :
    Except String MState :=
  if o.status_type = 200 then insert_new_order s o
  else if o.status_type = 201 then
    match (if imo then position_update_201 s o c else Except.ok s) with
    | Except.error e => Except.error e
    | Except.ok s =>
      match replace_existing_order s o with
      | Except.error e => Except.error e
      | Except.ok s => handle_trade s o
  else if o.status_type = 202 then Except.ok s
  else if o.status_type = 203 then Except.ok (remove_order s o)
  else if o.status_type = 204 then insert_new_order (remove_order s o) o
  else if o.status_type = 300 then Except.ok s
  else if o.status_type = 610 then Except.ok (remove_order s o)
  else if o.status_type ≥ 600 then Except.ok (remove_order s o)
  else Except.ok s

/-- Clock of the last element of a non-empty stash (`oooo[-1]['clock']`). -/
def lastClockD (l : List Order) : Int :=
  match l with
  | [] => 0
  | f :: r => (r.getLastD f).clock

/-- The clock-gating and dispatch tail of `handle_order` (lines 657-771),
after the prologue and the out-of-order stash block.  `exists_`/`existing`
are the pre-stash book snapshot taken on lines 599-602 (they only feed the
logging branch, where the unguarded `order['status_reason']` subscript on
line 698 can raise).  A clock gap on a non-stashable event awaits
`async_load_books`, an external snapshot fetch, modelled as an error. -/
def handleOrderPost (s : MState) (o : Order) (imo : Bool)
    (exists_ : Bool) (existing : Option BookOrder) (c : Contract) :
    Except String (Bool × MState) :=
  let contract_id := o.contract_id
  let ccOpt := s.contract_clock contract_id
  let contract_clock :=
    match ccOpt with
    | none => o.clock - 1
    | some k => k
  if o.clock ≤ contract_clock ∧ imo ∧ ¬ o.hasMpid then Except.ok (false, s)
  else
    match
      (if contract_clock + 1 ≠ o.clock ∧ contract_clock < o.clock then
        if ccOpt = none ∨ ccOpt ≠ some (-2) then
          if imo ∧ o.hasMpid then
            let oooo := s.my_out_of_order_orders contract_id
            if oooo = [] ∨ lastClockD oooo < o.clock then
              let st := fupdate s.my_out_of_order_orders contract_id (oooo ++ [o])
              Except.ok (some (false, { s with my_out_of_order_orders := st }))
            else Except.error "external: async_load_books"
          else Except.error "external: async_load_books"
        else Except.ok none
      else Except.ok none) with
    | Except.error e => Except.error e
    | Except.ok (some r) => Except.ok r
    | Except.ok none =>
      if contract_clock + 1 ≠ o.clock then
        if ¬ s.action_queue_open then
          if ¬ exists_ ∧ o.status_type = 203 then Except.ok (false, s)
          else if exists_ && (match existing with
                              | some ex => ex.hasMpid
                              | none => false) && ! o.hasMpid then
            Except.ok (false, s)
          else if ¬ exists_ ∧ o.status_type = 201 then
            match o.status_reason with
            | none => Except.error "KeyError status_reason"
            | some _ => Except.ok (false, s)
          else Except.ok (false, s)
        else Except.ok (false, s)
      else
        let cc := fupdate s.contract_clock contract_id (some o.clock)
        let s := { s with contract_clock := cc }
        match dispatchStatus s o imo c with
        | Except.error e => Except.error e
        | Except.ok s =>
          match get_top_from_book_state s contract_id with
          | Except.error e => Except.error e
          | Except.ok new_top =>
            let r := check_book_top s new_top
            Except.ok (true, r.2.2)

/-- The prologue of `handle_order` (lines 582-607): the contract must be
known (otherwise the code performs an external `retrieve_contract`, modelled
as an error), `is_my_order` runs with its side effects, and the pre-stash
book snapshot for the order's mid is taken. -/
def prologue (s : MState) (o : Order) :
    Except String (Bool × Bool × Option BookOrder × Contract × MState) :=
  match s.all_contracts o.contract_id with
  | none => Except.error "external: retrieve_contract"
  | some c =>
    match is_my_order s o with
    | Except.error e => Except.error e
    | Except.ok (imo, s) =>
      let existing := alookup (s.book_states o.contract_id) o.mid
      Except.ok (imo, existing.isSome, existing, c, s)

/-- `handle_order` with `ignore_out_of_order=True`, as invoked when replaying
stashed orders through `handle_action(replay, True)` (line 647): the stash
block is skipped, everything else is identical. -/
def handleOrderIgnored (s : MState) (o : Order) : Except String (Bool × MState) :=
  match prologue s o with
  | Except.error e => Except.error e
  | Except.ok (imo, exists_, existing, c, s) => handleOrderPost s o imo exists_ existing c

/-- The replay loop of lines 646-647: each stashed order is re-dispatched
with `ignore_out_of_order=True`. -/
def replayAll (s : MState) : List Order → Except String MState
  | [] => Except.ok s
  | r :: rest =>
    match handleOrderIgnored s r with
    | Except.error e => Except.error e
    | Except.ok (_, s) => replayAll s rest

/-- Lines 641-655: consume the decision of the stash block.  With
`replay_all` the stash is deleted and every captured entry replayed; with the
stash not okay the (possibly repopulated) stash is deleted again and a book
reload queued; processing then falls through to the clock-gating tail. -/
def stashResolve (s : MState) (o : Order) (imo : Bool) (exists_ : Bool)
    (existing : Option BookOrder) (c : Contract) (oooo : List Order)
    (replay_all stashed_is_okay : Bool) : Except String (Bool × MState) :=
  let contract_id := o.contract_id
  match
    (if replay_all then
      let st := fupdate s.my_out_of_order_orders contract_id []
      replayAll { s with my_out_of_order_orders := st } oooo
    else Except.ok s) with
  | Except.error e => Except.error e
  | Except.ok s =>
    let s :=
      if ¬ stashed_is_okay then
        let st := fupdate s.my_out_of_order_orders contract_id []
        queue_reload_books { s with my_out_of_order_orders := st } contract_id
      else s
    handleOrderPost s o imo exists_ existing c

/-- `MarketState.handle_order` (lines 582-771).  After the prologue, a
recognised own order with a non-empty stash (and the ignore flag clear) runs
the out-of-order block of lines 609-655; everything falls through to
`handleOrderPost`. -/
def handleOrder (s : MState) (o : Order) (ignore_out_of_order : Bool) :
    Except String (Bool × MState) :=
  match prologue s o with
  | Except.error e => Except.error e
  | Except.ok (imo, exists_, existing, c, s) =>
    let contract_id := o.contract_id
    match s.my_out_of_order_orders contract_id with
    | [] => handleOrderPost s o imo exists_ existing c
    | f :: rest =>
      if imo ∧ ¬ ignore_out_of_order then
        let oooo := f :: rest
        let lastO := rest.getLastD f
        if f.clock < o.clock then
          if o.clock - f.clock > 10 then
            stashResolve s o imo exists_ existing c oooo true false
          else
            handleOrderPost s o imo exists_ existing c
        else if f.clock = o.clock then
          if ¬ f.hasMpid then Except.error "assert mpid in first"
          else if f.status_type ≠ o.status_type ∨ f.mid ≠ o.mid then
            stashResolve s o imo exists_ existing c oooo false false
          else
            stashResolve s o imo exists_ existing c oooo true true
        else if lastO.clock + 1 = o.clock then
          let st := fupdate s.my_out_of_order_orders contract_id (oooo ++ [o])
          Except.ok (false, { s with my_out_of_order_orders := st })
        else
          stashResolve s o imo exists_ existing c oooo true false
      else handleOrderPost s o imo exists_ existing c

/-- Sequential delivery of a list of `action_report` events through
`handle_order` (the dispatcher path of `handle_action`). -/
def deliverOrders (s : MState) : List Order → Except String MState
  | [] => Except.ok s
  | o :: rest =>
    match handleOrder s o false with
    | Except.error e => Except.error e
    | Except.ok (_, s) => deliverOrders s rest

/-- All trades must belong to the position's contract
(`assert(contract_id == int(trade["contract_id"]))`, line 1821). -/
def tradesMatchContract (contract_id : Nat) (trades : List Trade) : Bool :=
  trades.all (fun t => t.contract_id == contract_id)

/-- `MarketState.process_basis_trades` (lines 1813-1855).  The function
reverses the fetched (reverse-chronological) list IN PLACE
(`trades.reverse()`, line 1818); the returned list is the caller's list
after that mutation.  When the recomputed size disagrees with the tracked
position size, nothing is stored and a delayed retry is scheduled; otherwise
the position's side is fixed up, the basis stored, and the contract removed
from the pending set. -/
def process_basis_trades (s : MState) (contract_id : Nat) (position : Position)
    (trades : List Trade) : Except String (MState × List Trade) :=
  let chron := trades.reverse
  if ¬ tradesMatchContract contract_id chron then
    Except.error "assert contract_id equals trade contract_id"
  else
    let pb := basisFold chron
    if pb.1 ≠ position.size then
      Except.ok ({ s with pending_basis := s.pending_basis ++ [contract_id] }, chron)
    else
      let position :=
        if pb.1 < 0 ∧ position.isLong then { position with isLong := false }
        else if pb.1 ≥ 0 ∧ ¬ position.isLong then { position with isLong := true }
        else position
      let position := { position with basis := some pb.2 }
      let cp := fupdate s.contract_positions contract_id (some position)
      let tu := fupdate s.to_update_basis contract_id false
      Except.ok ({ s with contract_positions := cp, to_update_basis := tu }, chron)

/-! ## Utility lemmas -/

theorem alookup_ainsert_self {α : Type} (l : List (Nat × α)) (k : Nat) (v : α) :
    alookup (ainsert l k v) k = some v := by
  induction l with
  | nil => simp [ainsert, alookup]
  | cons p r ih =>
    obtain ⟨pk, pv⟩ := p
    by_cases h : pk = k <;> simp [ainsert, alookup, h, ih]

theorem alookup_ainsert_ne {α : Type} (l : List (Nat × α)) (k k2 : Nat) (v : α)
    (h : k2 ≠ k) : alookup (ainsert l k v) k2 = alookup l k2 := by
  induction l with
  | nil =>
    simp only [ainsert, alookup]
    rw [if_neg (Ne.symm h)]
  | cons p r ih =>
    obtain ⟨pk, pv⟩ := p
    simp only [ainsert]
    by_cases h2 : pk = k
    · rw [if_pos h2]
      subst h2
      simp only [alookup]
      rw [if_neg (Ne.symm h), if_neg (Ne.symm h)]
    · rw [if_neg h2]
      simp only [alookup]
      by_cases h3 : pk = k2
      · rw [if_pos h3, if_pos h3]
      · rw [if_neg h3, if_neg h3]
        exact ih

theorem alookup_aerase_self {α : Type} (l : List (Nat × α)) (k : Nat) :
    alookup (aerase l k) k = none := by
  induction l with
  | nil => simp [aerase, alookup]
  | cons p r ih =>
    obtain ⟨pk, pv⟩ := p
    simp only [aerase]
    by_cases h : pk = k
    · rw [if_pos h]
      exact ih
    · rw [if_neg h]
      simp only [alookup]
      rw [if_neg h]
      exact ih

theorem alookup_aerase_ne {α : Type} (l : List (Nat × α)) (k k2 : Nat)
    (h : k2 ≠ k) : alookup (aerase l k) k2 = alookup l k2 := by
  induction l with
  | nil => simp [aerase, alookup]
  | cons p r ih =>
    obtain ⟨pk, pv⟩ := p
    simp only [aerase]
    by_cases h2 : pk = k
    · rw [if_pos h2]
      subst h2
      simp only [alookup]
      rw [if_neg (Ne.symm h)]
      exact ih
    · rw [if_neg h2]
      simp only [alookup]
      by_cases h3 : pk = k2
      · rw [if_pos h3, if_pos h3]
      · rw [if_neg h3, if_neg h3]
        exact ih

theorem fupdate_self {α : Type} (f : Nat → α) (k : Nat) (v : α) :
    fupdate f k v k = v := by simp [fupdate]

theorem fupdate_ne {α : Type} (f : Nat → α) (k k2 : Nat) (v : α) (h : k2 ≠ k) :
    fupdate f k v k2 = f k2 := by simp [fupdate, h]

/-- The fields `is_my_order` never writes. -/
def SameCore (s s2 : MState) : Prop :=
  s2.book_states = s.book_states ∧ s2.contract_clock = s.contract_clock ∧
  s2.all_contracts = s.all_contracts ∧
  s2.my_out_of_order_orders = s.my_out_of_order_orders ∧
  s2.async_reloading_books = s.async_reloading_books ∧
  s2.last_delete_clock = s.last_delete_clock ∧
  s2.book_top = s.book_top ∧ s2.contract_positions = s.contract_positions ∧
  s2.action_queue_open = s.action_queue_open ∧ s2.last_trade = s.last_trade ∧
  s2.pending_basis = s.pending_basis ∧ s2.to_update_basis = s.to_update_basis

/-- State well-formedness: the trader ids bootstrap together, so a missing
`mpid` implies a missing `cid` (the assert on line 429). -/
def SWF (s : MState) : Prop := s.mpid = none → s.cid = none

/-- Monotonicity of the ever-mine set between two states. -/
def midsMono (s s2 : MState) : Prop :=
  ∀ m, s.all_my_mids m = true → s2.all_my_mids m = true

theorem fupdate_true_mono (f : Nat → Bool) (k m : Nat) (h : f m = true) :
    fupdate f k true m = true := by
  unfold fupdate
  split <;> simp [h]

theorem is_my_order_facts (s : MState) (o : Order) (b : Bool) (s2 : MState)
    (h : is_my_order s o = Except.ok (b, s2)) :
    SameCore s s2 ∧ (SWF s → SWF s2) ∧ midsMono s s2 := by
  unfold is_my_order at h
  by_cases hb : s.mpid = none ∧ o.hasMpid = true
  · rw [if_pos hb] at h
    by_cases hc : s.cid = none
    · rw [if_pos hc] at h
      simp only at h
      split at h <;> (try split_ifs at h) <;>
        (simp only [Except.ok.injEq, Prod.mk.injEq] at h
         obtain ⟨hb2, hs2⟩ := h
         subst hs2
         refine ⟨⟨rfl, rfl, rfl, rfl, rfl, rfl, rfl, rfl, rfl, rfl, rfl, rfl⟩, ?_, ?_⟩
         · intro _ hmp
           simp at hmp
         · intro m hm
           first
             | (apply fupdate_true_mono; exact hm)
             | exact hm)
    · rw [if_neg hc] at h
      simp at h
  · rw [if_neg hb] at h
    simp only at h
    split at h <;> (try split_ifs at h) <;>
      (simp only [Except.ok.injEq, Prod.mk.injEq] at h
       obtain ⟨hb2, hs2⟩ := h
       subst hs2
       refine ⟨⟨rfl, rfl, rfl, rfl, rfl, rfl, rfl, rfl, rfl, rfl, rfl, rfl⟩, ?_, ?_⟩
       · intro hswf hmp
         exact hswf hmp
       · intro m hm
         first
           | (apply fupdate_true_mono; exact hm)
           | exact hm)

/-- Book dictionary invariant: every entry is keyed by its order's mid
(`assert(mid == book['mid'])`, line 794). -/
def BookInv (l : List (Nat × BookOrder)) : Prop := ∀ p ∈ l, p.1 = p.2.mid

theorem BookInv_ainsert (l : List (Nat × BookOrder)) (k : Nat) (v : BookOrder)
    (hi : BookInv l) (hv : v.mid = k) : BookInv (ainsert l k v) := by
  induction l with
  | nil =>
    intro p hp
    simp [ainsert] at hp
    subst hp
    exact hv.symm
  | cons q r ih =>
    obtain ⟨qk, qv⟩ := q
    intro p hp
    simp only [ainsert] at hp
    by_cases h2 : qk = k
    · rw [if_pos h2] at hp
      rcases List.mem_cons.mp hp with h3 | h3
      · subst h3
        simpa [h2] using hv.symm
      · exact hi p (List.mem_cons_of_mem _ h3)
    · rw [if_neg h2] at hp
      rcases List.mem_cons.mp hp with h3 | h3
      · subst h3
        exact hi (qk, qv) (List.mem_cons_self _ _)
      · exact ih (fun p2 hp2 => hi p2 (List.mem_cons_of_mem _ hp2)) p h3

theorem BookInv_aerase (l : List (Nat × BookOrder)) (k : Nat)
    (hi : BookInv l) : BookInv (aerase l k) := by
  induction l with
  | nil => intro p hp; simp [aerase] at hp
  | cons q r ih =>
    obtain ⟨qk, qv⟩ := q
    intro p hp
    simp only [aerase] at hp
    by_cases h2 : qk = k
    · rw [if_pos h2] at hp
      exact ih (fun p2 hp2 => hi p2 (List.mem_cons_of_mem _ hp2)) p hp
    · rw [if_neg h2] at hp
      rcases List.mem_cons.mp hp with h3 | h3
      · subst h3
        exact hi (qk, qv) (List.mem_cons_self _ _)
      · exact ih (fun p2 hp2 => hi p2 (List.mem_cons_of_mem _ hp2)) p h3

theorem topFold_ok (l : List (Nat × BookOrder)) (acc : Int × Option Int × Option Int)
    (hi : BookInv l) : ∃ r, topFold l acc = Except.ok r := by
  induction l generalizing acc with
  | nil => exact ⟨acc, rfl⟩
  | cons q r ih =>
    obtain ⟨qk, qv⟩ := q
    obtain ⟨c, bid, ask⟩ := acc
    have hq : qk = qv.mid := hi (qk, qv) (List.mem_cons_self _ _)
    have hr : BookInv r := fun p hp => hi p (List.mem_cons_of_mem _ hp)
    simp only [topFold]
    rw [if_neg (by simp [hq])]
    split <;> exact ih _ hr

theorem get_top_ok (s : MState) (contract_id : Nat) (c : Contract)
    (hc : s.all_contracts contract_id = some c)
    (hi : BookInv (s.book_states contract_id)) :
    ∃ bt, get_top_from_book_state s contract_id = Except.ok bt := by
  unfold get_top_from_book_state
  rw [hc]
  obtain ⟨⟨rc, rb, ra⟩, hr⟩ := topFold_ok (s.book_states contract_id) _ hi
  simp only
  rw [hr]
  exact ⟨_, rfl⟩

theorem check_book_top_state (s : MState) (nt : BookTop) :
    ((check_book_top s nt).2.2.contract_clock = s.contract_clock) ∧
    ((check_book_top s nt).2.2.all_contracts = s.all_contracts) ∧
    ((check_book_top s nt).2.2.book_states = s.book_states) ∧
    ((check_book_top s nt).2.2.all_my_mids = s.all_my_mids) ∧
    ((check_book_top s nt).2.2.my_out_of_order_orders = s.my_out_of_order_orders) ∧
    ((check_book_top s nt).2.2.async_reloading_books = s.async_reloading_books) ∧
    ((check_book_top s nt).2.2.mpid = s.mpid) ∧
    ((check_book_top s nt).2.2.cid = s.cid) := by
  unfold check_book_top
  dsimp only
  split <;> (try split_ifs) <;> exact ⟨rfl, rfl, rfl, rfl, rfl, rfl, rfl, rfl⟩

theorem remove_order_facts (s : MState) (o : Order) :
    (remove_order s o).contract_clock = s.contract_clock ∧
    (remove_order s o).all_contracts = s.all_contracts ∧
    (remove_order s o).my_out_of_order_orders = s.my_out_of_order_orders ∧
    (remove_order s o).action_queue_open = s.action_queue_open ∧
    (remove_order s o).async_reloading_books = s.async_reloading_books ∧
    (remove_order s o).book_states = fupdate s.book_states o.contract_id
      (aerase (s.book_states o.contract_id) o.mid) ∧
    midsMono s (remove_order s o) ∧ (SWF s → SWF (remove_order s o)) ∧
    (remove_order s o).mpid = s.mpid := by
  simp only [remove_order]
  split_ifs with hmo
  · refine ⟨rfl, rfl, rfl, rfl, rfl, rfl, ?_, ?_, rfl⟩
    · intro m hm
      apply fupdate_true_mono
      exact hm
    · intro hswf
      exact hswf
  · exact ⟨rfl, rfl, rfl, rfl, rfl, rfl, fun m hm => hm, fun hswf => hswf, rfl⟩

theorem queue_reload_books_facts (s : MState) (contract_id : Nat) :
    (queue_reload_books s contract_id).contract_clock = s.contract_clock ∧
    (queue_reload_books s contract_id).all_contracts = s.all_contracts ∧
    (queue_reload_books s contract_id).book_states = s.book_states ∧
    (queue_reload_books s contract_id).all_my_mids = s.all_my_mids ∧
    (queue_reload_books s contract_id).my_out_of_order_orders = s.my_out_of_order_orders ∧
    (queue_reload_books s contract_id).action_queue_open = s.action_queue_open ∧
    (queue_reload_books s contract_id).mpid = s.mpid ∧
    (queue_reload_books s contract_id).cid = s.cid ∧
    (queue_reload_books s contract_id).async_reloading_books contract_id = true := by
  simp only [queue_reload_books]
  split_ifs with hq
  · exact ⟨rfl, rfl, rfl, rfl, rfl, rfl, rfl, rfl, hq⟩
  · exact ⟨rfl, rfl, rfl, rfl, rfl, rfl, rfl, rfl, fupdate_self _ _ _⟩

theorem handle_book_state_facts (s : MState) (contract_id : Nat) (bo : BookOrder) :
    (handle_book_state s contract_id bo).contract_clock = s.contract_clock ∧
    (handle_book_state s contract_id bo).all_contracts = s.all_contracts ∧
    (handle_book_state s contract_id bo).all_my_mids = s.all_my_mids ∧
    (handle_book_state s contract_id bo).my_orders = s.my_orders ∧
    (handle_book_state s contract_id bo).my_out_of_order_orders = s.my_out_of_order_orders ∧
    (handle_book_state s contract_id bo).action_queue_open = s.action_queue_open ∧
    (handle_book_state s contract_id bo).async_reloading_books = s.async_reloading_books ∧
    (handle_book_state s contract_id bo).mpid = s.mpid ∧
    (handle_book_state s contract_id bo).cid = s.cid ∧
    (∀ n, BookInv (s.book_states n) →
      BookInv ((handle_book_state s contract_id bo).book_states n)) := by
  unfold handle_book_state
  dsimp only
  split
  · split_ifs
    · exact ⟨rfl, rfl, rfl, rfl, rfl, rfl, rfl, rfl, rfl, fun n hn => hn⟩
    · refine ⟨rfl, rfl, rfl, rfl, rfl, rfl, rfl, rfl, rfl, ?_⟩
      intro n hn
      simp only [fupdate]
      split
      · next heq =>
        subst heq
        exact BookInv_ainsert _ _ _ hn rfl
      · exact hn
  · refine ⟨rfl, rfl, rfl, rfl, rfl, rfl, rfl, rfl, rfl, ?_⟩
    intro n hn
    simp only [fupdate]
    split
    · next heq =>
      subst heq
      exact BookInv_ainsert _ _ _ hn rfl
    · exact hn

/-- The size an entry gets when `insert_new_order` runs with status 201: the
inserted size when non-zero, otherwise the original size. -/
def effInsertSize (o : Order) : Int :=
  match o.inserted_size with
  | some isz =>
    if isz ≠ 0 then isz
    else (match o.original_size with | some osz => osz | none => 0)
  | none => 0

theorem insert_new_order_facts (s : MState) (o : Order) (s2 : MState)
    (h : insert_new_order s o = Except.ok s2) :
    s2.contract_clock = s.contract_clock ∧
    s2.all_contracts = s.all_contracts ∧
    s2.my_out_of_order_orders = s.my_out_of_order_orders ∧
    s2.action_queue_open = s.action_queue_open ∧
    s2.async_reloading_books = s.async_reloading_books ∧
    s2.last_delete_clock = s.last_delete_clock ∧
    (SWF s → SWF s2) ∧ midsMono s s2 ∧
    ∃ bo : BookOrder, bo.mid = o.mid ∧ bo.clock = o.clock ∧
      s2.book_states = fupdate s.book_states o.contract_id
        (ainsert (s.book_states o.contract_id) o.mid bo) ∧
      (o.status_type = 200 ∨ o.status_type = 204 → bo.size = o.size) ∧
      (o.status_type = 201 → bo.size = effInsertSize o) := by
  unfold insert_new_order at h
  dsimp only at h
  split at h
  · simp at h
  · rename_i hneg
    split at h
    · simp at h
    · rename_i c hc
      split at h
      · simp at h
      · rename_i imo s1 hio
        obtain ⟨hcore, hswf1, hmono1⟩ := is_my_order_facts s o imo s1 hio
        obtain ⟨hbk, hcc, hac, hooo, harb, hldc, hbt, hcp, haqo, hlt, hpb, htub⟩ := hcore
        split at h
        · simp at h
        · rename_i bo heq
          have hstat : o.status_type = 200 ∨ o.status_type = 201 ∨ o.status_type = 204 := by
            by_contra hco
            exact hneg hco
          have hbo : bo.mid = o.mid ∧ bo.clock = o.clock ∧
              (o.status_type = 200 ∨ o.status_type = 204 → bo.size = o.size) ∧
              (o.status_type = 201 → bo.size = effInsertSize o) := by
            by_cases hs4 : o.status_type = 200 ∨ o.status_type = 204
            · rw [if_pos hs4] at heq
              split at heq
              · rename_i isz ipr his hip
                by_cases hmm : o.size = isz ∧ o.price = ipr
                · rw [if_pos hmm] at heq
                  simp only [Except.ok.injEq] at heq
                  subst heq
                  refine ?_
                  split_ifs <;>
                    exact ⟨rfl, rfl, fun _ => rfl,
                      fun h201 => by rcases hs4 with h4 | h4 <;> omega⟩
                · rw [if_neg hmm] at heq
                  simp at heq
              · simp at heq
            · have hs201 : o.status_type = 201 := by
                rcases hstat with h5 | h5 | h5
                · exact absurd (Or.inl h5) hs4
                · exact h5
                · exact absurd (Or.inr h5) hs4
              rw [if_neg hs4] at heq
              split at heq
              · simp at heq
              · rename_i isz his
                by_cases hnz : isz ≠ 0
                · rw [if_pos hnz] at heq
                  split at heq
                  · simp at heq
                  · rename_i ipr hip
                    simp only [Except.ok.injEq] at heq
                    subst heq
                    split_ifs <;>
                      exact ⟨rfl, rfl,
                        fun h24 => absurd h24 hs4,
                        fun _ => by simp [effInsertSize, his, hnz]⟩
                · rw [if_neg hnz] at heq
                  split at heq
                  · rename_i osz opr hos hop
                    simp only [Except.ok.injEq] at heq
                    subst heq
                    split_ifs <;>
                      exact ⟨rfl, rfl,
                        fun h24 => absurd h24 hs4,
                        fun _ => by simp [effInsertSize, his, hnz, hos]⟩
                  · simp at heq
          split_ifs at h <;>
            (simp only [Except.ok.injEq] at h
             subst h
             refine ⟨hcc, hac, hooo, haqo, harb, hldc, ?_, ?_, ?_⟩
             · intro hswf
               exact hswf1 hswf
             · intro m hm
               exact hmono1 m hm
             · exact ⟨bo, hbo.1, hbo.2.1, by rw [hbk], hbo.2.2.1, hbo.2.2.2⟩)

theorem BookInv_fupdate_ainsert (books : Nat → List (Nat × BookOrder))
    (contract_id k : Nat) (v : BookOrder) (hv : v.mid = k) (n : Nat)
    (hn : BookInv (books n)) :
    BookInv (fupdate books contract_id (ainsert (books contract_id) k v) n) := by
  simp only [fupdate]
  split
  · next heq =>
    subst heq
    exact BookInv_ainsert _ _ _ hn hv
  · exact hn

theorem handle_trade_facts (s : MState) (o : Order) (s2 : MState)
    (h : handle_trade s o = Except.ok s2) :
    s2.contract_clock = s.contract_clock ∧
    s2.all_contracts = s.all_contracts ∧
    s2.book_states = s.book_states ∧
    s2.my_out_of_order_orders = s.my_out_of_order_orders ∧
    s2.action_queue_open = s.action_queue_open ∧
    s2.async_reloading_books = s.async_reloading_books ∧
    s2.last_delete_clock = s.last_delete_clock ∧
    (SWF s → SWF s2) ∧ midsMono s s2 := by
  unfold handle_trade at h
  dsimp only at h
  split at h
  · simp at h
  · split at h
    · rename_i fp fs hfp hfs
      split at h
      · simp at h
      · rename_i hasM s3 heq
        have hfacts : s3.contract_clock = s.contract_clock ∧
            s3.all_contracts = s.all_contracts ∧
            s3.book_states = s.book_states ∧
            s3.my_out_of_order_orders = s.my_out_of_order_orders ∧
            s3.action_queue_open = s.action_queue_open ∧
            s3.async_reloading_books = s.async_reloading_books ∧
            s3.last_delete_clock = s.last_delete_clock ∧
            (SWF s → SWF s3) ∧ midsMono s s3 := by
          by_cases hmp : o.hasMpid = true
          · rw [if_pos hmp] at heq
            simp only [Except.ok.injEq, Prod.mk.injEq] at heq
            obtain ⟨hh, hs3⟩ := heq
            subst hs3
            exact ⟨rfl, rfl, rfl, rfl, rfl, rfl, rfl, fun hs => hs, fun m hm => hm⟩
          · rw [if_neg hmp] at heq
            obtain ⟨hcore, hswf1, hmono1⟩ := is_my_order_facts s o hasM s3 heq
            obtain ⟨hbk, hcc, hac, hooo, harb, hldc, hbt, hcp, haqo, hlt, hpb, htub⟩ := hcore
            exact ⟨hcc, hac, hbk, hooo, haqo, harb, hldc, hswf1, hmono1⟩
        obtain ⟨hcc, hac, hbk, hooo, haqo, harb, hldc, hswf1, hmono1⟩ := hfacts
        split at h <;>
          [skip;
           (split_ifs at h <;>
             (simp only [Except.ok.injEq] at h
              subst h
              exact ⟨hcc, hac, hbk, hooo, haqo, harb, hldc, hswf1, hmono1⟩))] <;>
          (simp only [Except.ok.injEq] at h
           subst h
           exact ⟨hcc, hac, hbk, hooo, haqo, harb, hldc, hswf1, hmono1⟩)
    · simp at h

theorem position_update_201_facts (s : MState) (o : Order) (c : Contract)
    (s2 : MState) (h : position_update_201 s o c = Except.ok s2) :
    s2.contract_clock = s.contract_clock ∧
    s2.all_contracts = s.all_contracts ∧
    s2.book_states = s.book_states ∧
    s2.my_out_of_order_orders = s.my_out_of_order_orders ∧
    s2.action_queue_open = s.action_queue_open ∧
    s2.async_reloading_books = s.async_reloading_books ∧
    s2.last_delete_clock = s.last_delete_clock ∧
    s2.all_my_mids = s.all_my_mids ∧
    s2.mpid = s.mpid ∧ s2.cid = s.cid := by
  unfold position_update_201 at h
  dsimp only at h
  split at h
  · split at h
    · simp only [Except.ok.injEq] at h
      subst h
      exact ⟨rfl, rfl, rfl, rfl, rfl, rfl, rfl, rfl, rfl, rfl⟩
    · split_ifs at h <;>
        (simp only [Except.ok.injEq] at h
         subst h
         exact ⟨rfl, rfl, rfl, rfl, rfl, rfl, rfl, rfl, rfl, rfl⟩)
  · simp at h

/-- What every status-dispatch primitive preserves: the contract clocks, the
contract table, the stash, the action-queue flag, state well-formedness, the
ever-mine set (monotonically) and the book key invariant. -/
def Frame (s s2 : MState) : Prop :=
  s2.contract_clock = s.contract_clock ∧ s2.all_contracts = s.all_contracts ∧
  s2.my_out_of_order_orders = s.my_out_of_order_orders ∧
  s2.action_queue_open = s.action_queue_open ∧
  (SWF s → SWF s2) ∧ midsMono s s2 ∧
  (∀ n, BookInv (s.book_states n) → BookInv (s2.book_states n))

theorem Frame_rfl (s : MState) : Frame s s :=
  ⟨rfl, rfl, rfl, rfl, fun hs => hs, fun _ hm => hm, fun _ hn => hn⟩

theorem Frame_trans {s t u : MState} (h1 : Frame s t) (h2 : Frame t u) :
    Frame s u := by
  obtain ⟨a1, b1, c1, d1, e1, f1, g1⟩ := h1
  obtain ⟨a2, b2, c2, d2, e2, f2, g2⟩ := h2
  refine ⟨a2.trans a1, b2.trans b1, c2.trans c1, d2.trans d1,
    fun hs => e2 (e1 hs), fun m hm => f2 m (f1 m hm), fun n hn => g2 n (g1 n hn)⟩

theorem frame_is_my_order {s : MState} {o : Order} {b : Bool} {s2 : MState}
    (h : is_my_order s o = Except.ok (b, s2)) : Frame s s2 := by
  obtain ⟨hcore, hswf, hmono⟩ := is_my_order_facts s o b s2 h
  obtain ⟨hbk, hcc, hac, hooo, harb, hldc, hbt, hcp, haqo, hlt, hpb, htub⟩ := hcore
  exact ⟨hcc, hac, hooo, haqo, hswf, hmono, fun n hn => by rw [hbk]; exact hn⟩

theorem frame_insert {s : MState} {o : Order} {s2 : MState}
    (h : insert_new_order s o = Except.ok s2) : Frame s s2 := by
  obtain ⟨hcc, hac, hooo, haqo, harb, hldc, hswf, hmono, bo, hmid, hclk, hbk, h24, h201⟩ :=
    insert_new_order_facts s o s2 h
  refine ⟨hcc, hac, hooo, haqo, hswf, hmono, ?_⟩
  intro n hn
  rw [hbk]
  exact BookInv_fupdate_ainsert s.book_states o.contract_id o.mid bo hmid n hn

theorem BookInv_fupdate_aerase (books : Nat → List (Nat × BookOrder))
    (contract_id k : Nat) (n : Nat) (hn : BookInv (books n)) :
    BookInv (fupdate books contract_id (aerase (books contract_id) k) n) := by
  simp only [fupdate]
  split
  · next heq =>
    subst heq
    exact BookInv_aerase _ _ hn
  · exact hn

theorem frame_remove (s : MState) (o : Order) : Frame s (remove_order s o) := by
  obtain ⟨hcc, hac, hooo, haqo, harb, hbk, hmono, hswf, hmp⟩ := remove_order_facts s o
  refine ⟨hcc, hac, hooo, haqo, hswf, hmono, ?_⟩
  intro n hn
  rw [hbk]
  exact BookInv_fupdate_aerase s.book_states o.contract_id o.mid n hn

theorem frame_handle_book_state (s : MState) (contract_id : Nat) (bo : BookOrder) :
    Frame s (handle_book_state s contract_id bo) := by
  obtain ⟨hcc, hac, hmm, hmo, hooo, haqo, harb, hmp, hcid, hinv⟩ :=
    handle_book_state_facts s contract_id bo
  refine ⟨hcc, hac, hooo, haqo, ?_, ?_, hinv⟩
  · intro hs hmp2
    rw [hmp] at hmp2
    rw [hcid]
    exact hs hmp2
  · intro m hm
    rw [hmm]
    exact hm

theorem frame_queue_reload (s : MState) (contract_id : Nat) :
    Frame s (queue_reload_books s contract_id) := by
  obtain ⟨hcc, hac, hbk, hmm, hooo, haqo, hmp, hcid, _⟩ :=
    queue_reload_books_facts s contract_id
  refine ⟨hcc, hac, hooo, haqo, ?_, ?_, ?_⟩
  · intro hs hmp2
    rw [hmp] at hmp2
    rw [hcid]
    exact hs hmp2
  · intro m hm
    rw [hmm]
    exact hm
  · intro n hn
    rw [hbk]
    exact hn

theorem frame_handle_trade {s : MState} {o : Order} {s2 : MState}
    (h : handle_trade s o = Except.ok s2) : Frame s s2 := by
  obtain ⟨hcc, hac, hbk, hooo, haqo, harb, hldc, hswf, hmono⟩ := handle_trade_facts s o s2 h
  exact ⟨hcc, hac, hooo, haqo, hswf, hmono, fun n hn => by rw [hbk]; exact hn⟩

theorem frame_position_update {s : MState} {o : Order} {c : Contract} {s2 : MState}
    (h : position_update_201 s o c = Except.ok s2) : Frame s s2 := by
  obtain ⟨hcc, hac, hbk, hooo, haqo, harb, hldc, hmm, hmp, hcid⟩ :=
    position_update_201_facts s o c s2 h
  refine ⟨hcc, hac, hooo, haqo, ?_, ?_, fun n hn => by rw [hbk]; exact hn⟩
  · intro hs hmp2
    rw [hmp] at hmp2
    rw [hcid]
    exact hs hmp2
  · intro m hm
    rw [hmm]
    exact hm

theorem frame_check_book_top (s : MState) (nt : BookTop) :
    Frame s (check_book_top s nt).2.2 := by
  obtain ⟨hcc, hac, hbk, hmm, hooo, harb, hmp, hcid⟩ := check_book_top_state s nt
  refine ⟨hcc, hac, hooo, ?_, ?_, ?_, fun n hn => by rw [hbk]; exact hn⟩
  · unfold check_book_top
    dsimp only
    split <;> (try split_ifs) <;> rfl
  · intro hs hmp2
    rw [hmp] at hmp2
    rw [hcid]
    exact hs hmp2
  · intro m hm
    rw [hmm]
    exact hm

theorem frame_ite_queue (s : MState) (contract_id : Nat) (c : Prop) [Decidable c] :
    Frame s (if c then queue_reload_books s contract_id else s) := by
  split_ifs
  · exact frame_queue_reload s contract_id
  · exact Frame_rfl s

theorem frame_replace_body {s : MState} {o : Order} {s2 : MState}
    (h : replace_body s o = Except.ok s2) : Frame s s2 := by
  unfold replace_body at h
  dsimp only at h
  split at h
  · simp at h
  · rename_i stored hstored
    split at h
    · simp at h
    · rename_i c hc
      split_ifs at h with hclk hsz hz0
      · -- full fill: remove path
        split at h <;>
          first
          | simp at h
          | (rename_i s4 heq4
             split at heq4
             · simp at heq4
             · rename_i r hr
               simp only [Except.ok.injEq, Prod.mk.injEq] at heq4
               obtain ⟨hs4, hfl⟩ := heq4
               subst hs4
               (try simp only [if_pos, if_neg] at h)
               split at h
               · simp at h
               · rename_i b6 s6 heq6
                 simp only [Except.ok.injEq] at h
                 subst h
                 refine Frame_trans (frame_remove s o) ?_
                 first
                 | exact Frame_trans (frame_ite_queue _ o.contract_id _)
                     (frame_is_my_order heq6)
                 | exact frame_is_my_order heq6
                 | exact Frame_trans (frame_queue_reload _ o.contract_id)
                     (frame_is_my_order heq6))
      · -- partial fill: in-place update path
        (try dsimp only at h)
        split at h
        · simp at h
        · rename_i b6 s6 heq6
          simp only [Except.ok.injEq] at h
          subst h
          refine Frame_trans (frame_handle_book_state s o.contract_id
            { stored with size := (replace_fill_size o stored).1, clock := o.clock }) ?_
          first
          | exact Frame_trans (frame_ite_queue _ o.contract_id _)
              (frame_is_my_order heq6)
          | exact frame_is_my_order heq6
          | exact Frame_trans (frame_queue_reload _ o.contract_id)
              (frame_is_my_order heq6)
      all_goals simp at h

theorem frame_replace {s : MState} {o : Order} {s2 : MState}
    (h : replace_existing_order s o = Except.ok s2) : Frame s s2 := by
  unfold replace_existing_order at h
  split_ifs at h
  all_goals try simp at h
  all_goals first
  | exact frame_replace_body h
  | (split at h
     · simp at h
     · rename_i s3 heq3
       exact Frame_trans (frame_insert heq3) (frame_replace_body h))

theorem frame_dispatch {s : MState} {o : Order} {imo : Bool} {c : Contract}
    {s2 : MState} (h : dispatchStatus s o imo c = Except.ok s2) : Frame s s2 := by
  unfold dispatchStatus at h
  split_ifs at h
  all_goals
    first
    | exact frame_insert h
    | exact Frame_trans (frame_remove s o) (frame_insert h)
    | (simp only [Except.ok.injEq] at h
       subst h
       first
       | exact Frame_rfl s
       | exact frame_remove s o)
    | (split at h
       · simp at h
       · rename_i s3 heq3
         have hf3 : Frame s s3 := by
           first
           | exact frame_position_update heq3
           | (simp only [Except.ok.injEq] at heq3
              subst heq3
              exact Frame_rfl s)
           | (split_ifs at heq3
              · exact frame_position_update heq3
              · simp only [Except.ok.injEq] at heq3
                subst heq3
                exact Frame_rfl s)
         split at h
         · simp at h
         · rename_i s4 heq4
           exact Frame_trans hf3
             (Frame_trans (frame_replace heq4) (frame_handle_trade h)))

theorem mids_mono_post {s : MState} {o : Order} {imo exists_ : Bool}
    {existing : Option BookOrder} {c : Contract} {b : Bool} {s2 : MState}
    (h : handleOrderPost s o imo exists_ existing c = Except.ok (b, s2)) :
    midsMono s s2 := by
  unfold handleOrderPost at h
  dsimp only at h
  split at h
  · -- stale own-order duplicate: state returned unchanged
    simp only [Except.ok.injEq, Prod.mk.injEq] at h
    obtain ⟨hb, hs⟩ := h
    subst hs
    exact fun m hm => hm
  · split at h
    · simp at h
    · -- the gap block stashed the order: only the stash changed
      rename_i r heq
      split_ifs at heq <;> (try simp at heq) <;>
        ((try simp only [Except.ok.injEq, Option.some.injEq] at heq)
         subst heq
         simp only [Except.ok.injEq, Prod.mk.injEq] at h
         obtain ⟨hb, hs⟩ := h
         subst hs
         exact fun m hm => hm)
    · -- no gap handling: the clock gate and dispatch
      split at h
      · -- clock mismatch: the state is returned unchanged on every path
        split_ifs at h <;>
          first
          | (simp only [Except.ok.injEq, Prod.mk.injEq] at h
             obtain ⟨hb, hs⟩ := h
             subst hs
             exact fun m hm => hm)
          | (split at h
             · simp at h
             · simp only [Except.ok.injEq, Prod.mk.injEq] at h
               obtain ⟨hb, hs⟩ := h
               subst hs
               exact fun m hm => hm)
      · -- clock matches: set the clock, dispatch, recompute the top
        split at h
        · simp at h
        · rename_i s4 heq4
          split at h
          · simp at h
          · rename_i nt hnt
            simp only [Except.ok.injEq, Prod.mk.injEq] at h
            obtain ⟨hb, hs⟩ := h
            subst hs
            intro m hm
            obtain ⟨_, _, _, hmm4, _⟩ := check_book_top_state s4 nt
            rw [hmm4]
            obtain ⟨_, _, _, _, _, hmono4, _⟩ := frame_dispatch heq4
            exact hmono4 m hm

theorem mids_mono_prologue {s : MState} {o : Order} {imo exists_ : Bool}
    {existing : Option BookOrder} {c : Contract} {s2 : MState}
    (h : prologue s o = Except.ok (imo, exists_, existing, c, s2)) :
    midsMono s s2 := by
  unfold prologue at h
  split at h
  · simp at h
  · split at h
    · simp at h
    · rename_i b3 s3 heq3
      simp only [Except.ok.injEq, Prod.mk.injEq] at h
      obtain ⟨h1, h2, h3, h4, h5⟩ := h
      subst h5
      obtain ⟨_, _, hmono⟩ := is_my_order_facts s o b3 s3 heq3
      exact hmono

theorem mids_mono_ignored {s : MState} {o : Order} {b : Bool} {s2 : MState}
    (h : handleOrderIgnored s o = Except.ok (b, s2)) : midsMono s s2 := by
  unfold handleOrderIgnored at h
  split at h
  · simp at h
  · rename_i imo exv exo c s3 heq3
    exact fun m hm => mids_mono_post h m (mids_mono_prologue heq3 m hm)

theorem mids_mono_replayAll {l : List Order} :
    ∀ {s s2 : MState}, replayAll s l = Except.ok s2 → midsMono s s2 := by
  induction l with
  | nil =>
    intro s s2 h
    simp only [replayAll, Except.ok.injEq] at h
    subst h
    exact fun m hm => hm
  | cons r rest ih =>
    intro s s2 h
    unfold replayAll at h
    split at h
    · simp at h
    · rename_i b3 s3 heq3
      exact fun m hm => ih h m (mids_mono_ignored heq3 m hm)

theorem mids_mono_stashResolve {s : MState} {o : Order} {imo exists_ : Bool}
    {existing : Option BookOrder} {c : Contract} {oooo : List Order}
    {ra ok : Bool} {b : Bool} {s2 : MState}
    (h : stashResolve s o imo exists_ existing c oooo ra ok = Except.ok (b, s2)) :
    midsMono s s2 := by
  unfold stashResolve at h
  dsimp only at h
  have cont : ∀ s3 : MState, midsMono s s3 →
      handleOrderPost
        (if ¬ ok = true then
          queue_reload_books
            { s3 with my_out_of_order_orders :=
                fupdate s3.my_out_of_order_orders o.contract_id [] } o.contract_id
        else s3) o imo exists_ existing c = Except.ok (b, s2) →
      midsMono s s2 := by
    intro s3 hm3 hpost m hm
    apply mids_mono_post hpost
    simp only [queue_reload_books]
    split_ifs <;> exact hm3 m hm
  by_cases hra : ra = true
  · rw [if_pos hra] at h
    split at h
    · simp at h
    · rename_i s3 heq3
      exact cont s3 (fun m hm => mids_mono_replayAll heq3 m hm) h
  · rw [if_neg hra] at h
    first
    | exact cont s (fun m hm => hm) h
    | (dsimp only at h
       exact cont s (fun m hm => hm) h)
    | (split at h
       · simp at h
       · rename_i s3 heq3
         simp only [Except.ok.injEq] at heq3
         subst heq3
         exact cont _ (fun m hm => hm) h)

theorem mids_mono_handleOrder {s : MState} {o : Order} {ig b : Bool} {s2 : MState}
    (h : handleOrder s o ig = Except.ok (b, s2)) : midsMono s s2 := by
  unfold handleOrder at h
  split at h
  · simp at h
  · rename_i imo exv exo c s3 heq3
    have hm3 : midsMono s s3 := mids_mono_prologue heq3
    dsimp only at h
    split at h
    · exact fun m hm => mids_mono_post h m (hm3 m hm)
    · split_ifs at h <;>
        first
        | exact fun m hm => mids_mono_stashResolve h m (hm3 m hm)
        | exact fun m hm => mids_mono_post h m (hm3 m hm)
        | ((try simp only [Except.ok.injEq, Prod.mk.injEq] at h)
           obtain ⟨hb, hs⟩ := h
           subst hs
           exact fun m hm => hm3 m hm)
        | exact absurd h (by simp)

/-! ## Concrete fixtures used by witnesses and counterexamples -/

/-- A single known contract (id 1, swap with multiplier 1) with the trader
ids already bootstrapped, contract clock 4, and everything else empty. -/
def baseState : MState :=
  { mpid := some 1, cid := some 7,
    all_my_mids := fun _ => false, my_orders := fun _ => false,
    contract_clock := fun n => if n = 1 then some 4 else none,
    book_states := fun _ => [], last_delete_clock := fun _ => none,
    book_top := fun _ => none, my_out_of_order_orders := fun _ => [],
    async_reloading_books := fun _ => false,
    contract_positions := fun _ => none, to_update_basis := fun _ => false,
    pending_basis := [],
    all_contracts := fun n => if n = 1 then some ⟨1, false⟩ else none,
    last_trade := fun _ => none, action_queue_open := false,
    last_heartbeat := none }

/-- A resting-order insert report (status 200) on contract 1 for the given
mid and clock; `hm` marks the presence of the trader's `mpid`. -/
def insOrder (midv : Nat) (clockv : Int) (hm : Bool) : Order :=
  { contract_id := 1, mid := midv, clock := clockv, status_type := 200,
    is_ask := false, price := 100, size := 5,
    filled_size := none, filled_price := none, status_reason := none,
    inserted_size := some 5, inserted_price := some 100,
    original_size := none, original_price := none,
    hasMpid := hm, mpid := 1, cid := 7, order_type := 0, updated_time := 0 }

/-! ## C10: the ever-mine set is append-only -/

/-- C10: `all_my_mids` is append-only.  `clear` (the full reset performed on
reload) leaves it untouched; `remove_order` (removing or filling an own
order) never drops a member — it moves the mid from `my_orders` INTO
`all_my_mids`; and no successful `handle_order` call, with or without the
out-of-order machinery, ever removes a member. -/
theorem C10_all_my_mids_append_only (s : MState) (o : Order) (m : Nat) (ig : Bool) :
    (clear s).all_my_mids = s.all_my_mids ∧
    (s.all_my_mids m = true → (remove_order s o).all_my_mids m = true) ∧
    (s.my_orders o.mid = true →
      (remove_order s o).all_my_mids o.mid = true ∧
      (remove_order s o).my_orders o.mid = false) ∧
    (∀ b s2, handleOrder s o ig = Except.ok (b, s2) →
      s.all_my_mids m = true → s2.all_my_mids m = true) := by
  refine ⟨rfl, ?_, ?_, ?_⟩
  · intro hm2
    obtain ⟨_, _, _, _, _, _, hmono, _⟩ := remove_order_facts s o
    exact hmono m hm2
  · intro hmo
    unfold remove_order
    dsimp only
    rw [if_pos (show s.my_orders o.mid = true from hmo)]
    exact ⟨fupdate_self _ _ _, fupdate_self _ _ _⟩
  · intro b s2 h hm2
    exact mids_mono_handleOrder h m hm2

/-- The result of one concrete `handle_order` run used by the C10 witness:
an own cancel of a tracked order. -/
def c10Order : Order :=
  { insOrder 5 5 true with status_type := 203 }

def c10State : MState :=
  { baseState with
    all_my_mids := fun n => n = 5,
    my_orders := fun n => n = 5,
    book_states := fun n =>
      if n = 1 then [(5, ⟨1, 100, 5, false, 1, 5, true⟩)] else [] }

def c10ResB : Bool :=
  match handleOrder c10State c10Order false with
  | Except.ok (b, _) => b
  | Except.error _ => false

def c10ResState : MState :=
  match handleOrder c10State c10Order false with
  | Except.ok (_, s2) => s2
  | Except.error _ => c10State

/-- Witness for C10 at a concrete input. -/
theorem C10_witness :
    (clear c10State).all_my_mids = c10State.all_my_mids ∧
    (remove_order c10State c10Order).all_my_mids 5 = true ∧
    (remove_order c10State c10Order).my_orders 5 = false ∧
    c10ResState.all_my_mids 5 = true := by
  have h := C10_all_my_mids_append_only c10State c10Order 5 false
  have hrun : handleOrder c10State c10Order false =
      Except.ok (c10ResB, c10ResState) := by rfl
  exact ⟨h.1, (h.2.2.1 (by decide)).1, (h.2.2.1 (by decide)).2,
    h.2.2.2 c10ResB c10ResState hrun (by decide)⟩

/-! ## Well-formedness of events, and success lemmas -/

/-- The statuses `handle_order` knows (lines 711-762): 200 insert, 201 fill,
202 unfilled market order, 203 cancel, 204 cancel/replace, 300 ack, and the
reject/expire family at 600 and above. -/
def statusValid (st : Nat) : Bool :=
  st == 200 || st == 201 || st == 202 || st == 203 || st == 204 || st == 300 ||
    decide (600 ≤ st)

/-- Field presence/consistency needed for `insert_new_order` not to raise:
status 200/204 events must carry inserted values matching their size and
price (the assert on line 482); status 201 events must carry the inserted
(or, when the inserted size is 0, the original) values (lines 483-491). -/
def insertWF (o : Order) : Bool :=
  if o.status_type = 200 ∨ o.status_type = 204 then
    o.inserted_size == some o.size && o.inserted_price == some o.price
  else
    match o.inserted_size with
    | some isz =>
      if isz ≠ 0 then o.inserted_price.isSome
      else
        match o.original_size, o.original_price with
        | some _, some _ => true
        | _, _ => false
    | none => false

/-- Field presence/consistency needed for the status dispatch of
`handle_order` not to raise on an otherwise valid event: fill events
(status 201) must carry a positive `filled_size`, a `filled_price` and a
`status_reason`, their insert payload must be well formed, and any already
stored entry for the mid must not be newer than the event (otherwise the
code raises `KeyError` on the missing `ticks` key) and must have positive
remaining size (a freshly inserted entry must, likewise). -/
def orderWF (s : MState) (o : Order) : Bool :=
  if o.status_type = 200 ∨ o.status_type = 204 then insertWF o
  else if o.status_type = 201 then
    (match o.filled_size with | some fs => decide (0 < fs) | none => false) &&
    o.filled_price.isSome && o.status_reason.isSome && insertWF o &&
    (match alookup (s.book_states o.contract_id) o.mid with
     | some bo => decide (bo.clock ≤ o.clock) && decide (0 < bo.size)
     | none => decide (0 < effInsertSize o))
  else true

/-- The recognition verdict of `is_my_order`, ignoring its side effects. -/
def isMyOrderB (s : MState) (o : Order) : Bool :=
  match is_my_order s o with
  | Except.ok (b, _) => b
  | Except.error _ => false

theorem is_my_order_ok (s : MState) (o : Order) (hswf : SWF s) :
    ∃ b s2, is_my_order s o = Except.ok (b, s2) := by
  unfold is_my_order
  by_cases hb : s.mpid = none ∧ o.hasMpid = true
  · rw [if_pos hb, if_pos (hswf hb.1)]
    dsimp only
    split_ifs <;> exact ⟨_, _, rfl⟩
  · rw [if_neg hb]
    dsimp only
    split_ifs <;> exact ⟨_, _, rfl⟩

theorem is_my_order_tail_ok (s : MState) (o : Order) (hswf : SWF s) :
    ∃ s2, (match is_my_order s o with
           | Except.error e => Except.error e
           | Except.ok (_, s) => Except.ok s) = Except.ok s2 := by
  obtain ⟨b, s2, hio⟩ := is_my_order_ok s o hswf
  refine ⟨s2, ?_⟩
  rw [hio]

theorem insert_new_order_ok (s : MState) (o : Order) (c : Contract)
    (hc : s.all_contracts o.contract_id = some c) (hswf : SWF s)
    (hstat : o.status_type = 200 ∨ o.status_type = 201 ∨ o.status_type = 204)
    (hwf : insertWF o = true) : ∃ s2, insert_new_order s o = Except.ok s2 := by
  obtain ⟨b, s1, hio⟩ := is_my_order_ok s o hswf
  unfold insert_new_order
  rw [if_neg (not_not_intro hstat), hc, hio]
  dsimp only
  unfold insertWF at hwf
  by_cases hs4 : o.status_type = 200 ∨ o.status_type = 204
  · rw [if_pos hs4] at hwf
    rw [if_pos hs4]
    simp only [Bool.and_eq_true, beq_iff_eq] at hwf
    obtain ⟨his, hip⟩ := hwf
    rw [his, hip]
    dsimp only
    rw [if_pos ⟨rfl, rfl⟩]
    split_ifs <;> exact ⟨_, rfl⟩
  · rw [if_neg hs4] at hwf
    rw [if_neg hs4]
    cases his : o.inserted_size with
    | none => simp [his] at hwf
    | some isz =>
      rw [his] at hwf
      dsimp only at hwf
      dsimp only
      by_cases hnz : isz ≠ 0
      · rw [if_pos hnz] at hwf
        rw [if_pos hnz]
        cases hip : o.inserted_price with
        | none => simp [hip] at hwf
        | some ipr => split_ifs <;> exact ⟨_, rfl⟩
      · rw [if_neg hnz] at hwf
        rw [if_neg hnz]
        cases hos : o.original_size with
        | none => simp [hos] at hwf
        | some osz =>
          cases hop : o.original_price with
          | none => simp [hos, hop] at hwf
          | some opr => split_ifs <;> exact ⟨_, rfl⟩

theorem position_update_201_ok (s : MState) (o : Order) (c : Contract)
    (fs fp : Int) (hfs : o.filled_size = some fs) (hfp : o.filled_price = some fp) :
    ∃ s2, position_update_201 s o c = Except.ok s2 := by
  unfold position_update_201
  rw [hfs, hfp]
  dsimp only
  cases hpos : s.contract_positions o.contract_id with
  | none => exact ⟨_, rfl⟩
  | some p =>
    dsimp only
    split_ifs <;> exact ⟨_, rfl⟩

theorem handle_trade_ok (s : MState) (o : Order) (c : Contract) (fs fp : Int)
    (hc : s.all_contracts o.contract_id = some c) (hswf : SWF s)
    (hfs : o.filled_size = some fs) (hfp : o.filled_price = some fp) :
    ∃ s2, handle_trade s o = Except.ok s2 := by
  unfold handle_trade
  dsimp only
  rw [hc, hfp, hfs]
  dsimp only
  by_cases hmp : o.hasMpid = true
  · rw [if_pos hmp]
    dsimp only
    cases hlt : s.last_trade o.contract_id with
    | none => exact ⟨_, rfl⟩
    | some last => dsimp only; split_ifs <;> exact ⟨_, rfl⟩
  · rw [if_neg hmp]
    obtain ⟨b, s1, hio⟩ := is_my_order_ok s o hswf
    rw [hio]
    dsimp only
    cases hlt : s1.last_trade o.contract_id with
    | none => exact ⟨_, rfl⟩
    | some last => dsimp only; split_ifs <;> exact ⟨_, rfl⟩

theorem replace_fill_size_val (o : Order) (stored : BookOrder) (fs : Int)
    (hfs : o.filled_size = some fs) (hpos : 0 < fs) (hsz : 0 < stored.size) :
    (replace_fill_size o stored).1 = max (stored.size - fs) 0 := by
  unfold replace_fill_size
  rw [hfs]
  dsimp only
  rw [if_pos ⟨hpos, hsz⟩]
  by_cases hneg : stored.size - fs < 0
  · rw [if_pos hneg]
    dsimp only
    rw [max_eq_right (by omega : stored.size - fs ≤ 0)]
  · rw [if_neg hneg]
    dsimp only
    rw [max_eq_left (by omega : 0 ≤ stored.size - fs)]

theorem SWF_remove (s : MState) (o : Order) (h : SWF s) : SWF (remove_order s o) :=
  (remove_order_facts s o).2.2.2.2.2.2.2.1 h

theorem SWF_queue (s : MState) (contract_id : Nat) (h : SWF s) :
    SWF (queue_reload_books s contract_id) := by
  obtain ⟨_, _, _, _, _, _, hmp, hcid, _⟩ := queue_reload_books_facts s contract_id
  intro hmp2
  rw [hmp] at hmp2
  rw [hcid]
  exact h hmp2

theorem SWF_hbs (s : MState) (contract_id : Nat) (bo : BookOrder) (h : SWF s) :
    SWF (handle_book_state s contract_id bo) := by
  obtain ⟨_, _, _, _, _, _, _, hmp, hcid, _⟩ := handle_book_state_facts s contract_id bo
  intro hmp2
  rw [hmp] at hmp2
  rw [hcid]
  exact h hmp2

theorem replace_body_ok (s : MState) (o : Order) (c : Contract)
    (stored : BookOrder) (fs r : Int)
    (hstored : alookup (s.book_states o.contract_id) o.mid = some stored)
    (hc : s.all_contracts o.contract_id = some c) (hswf : SWF s)
    (hclk : stored.clock ≤ o.clock) (hsz : 0 < stored.size)
    (hfs : o.filled_size = some fs) (hpos : 0 < fs)
    (hsr : o.status_reason = some r) :
    ∃ s2, replace_body s o = Except.ok s2 := by
  have hval := replace_fill_size_val o stored fs hfs hpos hsz
  unfold replace_body
  dsimp only
  rw [hstored, hc]
  dsimp only
  rw [if_pos hclk, if_pos (by rw [hval]; omega)]
  by_cases hz : (replace_fill_size o stored).1 = 0
  · rw [if_pos (by exact hz)]
    rw [hsr]
    dsimp only
    apply is_my_order_tail_ok
    split_ifs <;>
      first
      | exact SWF_queue _ _ (SWF_remove _ _ hswf)
      | exact SWF_remove _ _ hswf
  · rw [if_neg hz]
    dsimp only
    apply is_my_order_tail_ok
    split_ifs <;>
      first
      | exact SWF_queue _ _ (SWF_hbs _ _ _ hswf)
      | exact SWF_hbs _ _ _ hswf

theorem orderWF_201_parts (s : MState) (o : Order)
    (h201 : o.status_type = 201) (hwf : orderWF s o = true) :
    ∃ fs fp r, o.filled_size = some fs ∧ 0 < fs ∧ o.filled_price = some fp ∧
      o.status_reason = some r ∧ insertWF o = true ∧
      (∀ bo, alookup (s.book_states o.contract_id) o.mid = some bo →
        bo.clock ≤ o.clock ∧ 0 < bo.size) ∧
      (alookup (s.book_states o.contract_id) o.mid = none → 0 < effInsertSize o) := by
  unfold orderWF at hwf
  rw [if_neg (by simp [h201]), if_pos h201] at hwf
  simp only [Bool.and_eq_true] at hwf
  obtain ⟨⟨⟨⟨hfsb, hfpb⟩, hsrb⟩, hiwf⟩, hbook⟩ := hwf
  obtain ⟨fs, hfs, hpos⟩ : ∃ fs, o.filled_size = some fs ∧ 0 < fs := by
    cases hfs0 : o.filled_size with
    | none => rw [hfs0] at hfsb; simp at hfsb
    | some fs =>
      rw [hfs0] at hfsb
      dsimp only at hfsb
      exact ⟨fs, rfl, of_decide_eq_true hfsb⟩
  obtain ⟨fp, hfp⟩ := Option.isSome_iff_exists.mp hfpb
  obtain ⟨r, hsr⟩ := Option.isSome_iff_exists.mp hsrb
  refine ⟨fs, fp, r, hfs, hpos, hfp, hsr, hiwf, ?_, ?_⟩
  · intro bo hbo
    rw [hbo] at hbook
    dsimp only at hbook
    simp only [Bool.and_eq_true, decide_eq_true_eq] at hbook
    exact hbook
  · intro hnone
    rw [hnone] at hbook
    dsimp only at hbook
    exact of_decide_eq_true hbook

theorem replace_existing_order_ok (s : MState) (o : Order) (c : Contract)
    (fs r : Int) (hc : s.all_contracts o.contract_id = some c) (hswf : SWF s)
    (h201 : o.status_type = 201)
    (hfs : o.filled_size = some fs) (hpos : 0 < fs) (hsr : o.status_reason = some r)
    (hiwf : insertWF o = true)
    (hsome : ∀ bo, alookup (s.book_states o.contract_id) o.mid = some bo →
      bo.clock ≤ o.clock ∧ 0 < bo.size)
    (hnone : alookup (s.book_states o.contract_id) o.mid = none → 0 < effInsertSize o) :
    ∃ s2, replace_existing_order s o = Except.ok s2 := by
  unfold replace_existing_order
  rw [if_neg (not_not_intro (Or.inl h201))]
  cases hlook : alookup (s.book_states o.contract_id) o.mid with
  | some bo =>
    rw [if_pos (show (Option.some bo).isSome = true from rfl)]
    dsimp only
    obtain ⟨hclk, hsz⟩ := hsome bo hlook
    exact replace_body_ok s o c bo fs r hlook hc hswf hclk hsz hfs hpos hsr
  | none =>
    rw [if_neg (show ¬ ((Option.none : Option BookOrder).isSome = true) by simp)]
    obtain ⟨s3, hins⟩ := insert_new_order_ok s o c hc hswf (Or.inr (Or.inl h201)) hiwf
    rw [hins]
    dsimp only
    obtain ⟨hcc, hac, hooo, haqo, harb, hldc, hswf3, hmono3, bo, hmid, hclk3, hbk3, h24, h201size⟩ :=
      insert_new_order_facts s o s3 hins
    have hstored3 : alookup (s3.book_states o.contract_id) o.mid = some bo := by
      rw [hbk3, fupdate_self]
      rw [← hmid]
      exact alookup_ainsert_self _ _ _
    have hc3 : s3.all_contracts o.contract_id = some c := by rw [hac]; exact hc
    exact replace_body_ok s3 o c bo fs r hstored3 hc3 (hswf3 hswf)
      (le_of_eq hclk3) (by rw [h201size h201]; exact hnone hlook) hfs hpos hsr

theorem dispatch_ok (s : MState) (o : Order) (imo : Bool) (c : Contract)
    (hc : s.all_contracts o.contract_id = some c) (hswf : SWF s)
    (hwf : orderWF s o = true) :
    ∃ s2, dispatchStatus s o imo c = Except.ok s2 := by
  unfold dispatchStatus
  by_cases h200 : o.status_type = 200
  · rw [if_pos h200]
    refine insert_new_order_ok s o c hc hswf (Or.inl h200) ?_
    unfold orderWF at hwf
    rw [if_pos (Or.inl h200)] at hwf
    exact hwf
  · rw [if_neg h200]
    by_cases h201 : o.status_type = 201
    · rw [if_pos h201]
      obtain ⟨fs, fp, r, hfs, hpos, hfp, hsr, hiwf, hsome, hnone⟩ :=
        orderWF_201_parts s o h201 hwf
      have step1 : ∃ s3, (if imo = true then position_update_201 s o c
          else Except.ok s) = Except.ok s3 ∧
          s3.book_states = s.book_states ∧ s3.all_contracts = s.all_contracts ∧
          SWF s3 := by
        split_ifs
        · obtain ⟨s3, hp⟩ := position_update_201_ok s o c fs fp hfs hfp
          obtain ⟨_, hac3, hbk3, _, _, _, _, _, hmp3, hcid3⟩ :=
            position_update_201_facts s o c s3 hp
          refine ⟨s3, hp, hbk3, hac3, ?_⟩
          intro hmp
          rw [hmp3] at hmp
          rw [hcid3]
          exact hswf hmp
        · exact ⟨s, rfl, rfl, rfl, hswf⟩
      obtain ⟨s3, hp, hbk3, hac3, hswf3⟩ := step1
      rw [hp]
      dsimp only
      have hc3 : s3.all_contracts o.contract_id = some c := by rw [hac3]; exact hc
      obtain ⟨s4, hrep⟩ := replace_existing_order_ok s3 o c fs r hc3 hswf3 h201
        hfs hpos hsr hiwf (by rw [hbk3]; exact hsome) (by rw [hbk3]; exact hnone)
      rw [hrep]
      dsimp only
      obtain ⟨hcc4, hac4, hooo4, haqo4, hswf4, hmono4, hinv4⟩ := frame_replace hrep
      have hc4 : s4.all_contracts o.contract_id = some c := by
        rw [hac4, hac3]
        exact hc
      exact handle_trade_ok s4 o c fs fp hc4 (hswf4 hswf3) hfs hfp
    · rw [if_neg h201]
      by_cases h202 : o.status_type = 202
      · rw [if_pos h202]; exact ⟨_, rfl⟩
      · rw [if_neg h202]
        by_cases h203 : o.status_type = 203
        · rw [if_pos h203]; exact ⟨_, rfl⟩
        · rw [if_neg h203]
          by_cases h204 : o.status_type = 204
          · rw [if_pos h204]
            have hiwf : insertWF o = true := by
              unfold orderWF at hwf
              rw [if_pos (Or.inr h204)] at hwf
              exact hwf
            obtain ⟨_, hacr, _, _, _, _, _, _, _⟩ := remove_order_facts s o
            refine insert_new_order_ok (remove_order s o) o c ?_
              (SWF_remove s o hswf) (Or.inr (Or.inr h204)) hiwf
            rw [hacr]
            exact hc
          · rw [if_neg h204]
            split_ifs <;> exact ⟨_, rfl⟩

theorem orderWF_books (s t : MState) (o : Order)
    (h : t.book_states = s.book_states) : orderWF t o = orderWF s o := by
  unfold orderWF
  rw [h]

theorem post_advances (s : MState) (o : Order) (imo exists_ : Bool)
    (existing : Option BookOrder) (c : Contract) (k : Int)
    (hc : s.all_contracts o.contract_id = some c) (hswf : SWF s)
    (hcc : s.contract_clock o.contract_id = some k)
    (hclk : o.clock = k + 1)
    (hwf : orderWF s o = true)
    (hinv : BookInv (s.book_states o.contract_id)) :
    ∃ s2, handleOrderPost s o imo exists_ existing c = Except.ok (true, s2) ∧
      s2.contract_clock o.contract_id = some (k + 1) := by
  unfold handleOrderPost
  dsimp only
  rw [hcc]
  dsimp only
  rw [if_neg (show ¬ (o.clock ≤ k ∧ imo = true ∧ ¬ o.hasMpid = true) by
    rintro ⟨h1, -⟩
    rw [hclk] at h1
    omega)]
  rw [if_neg (show ¬ (k + 1 ≠ o.clock ∧ k < o.clock) by
    rintro ⟨h1, -⟩
    exact h1 hclk.symm)]
  dsimp only
  rw [if_neg (not_not_intro hclk.symm)]
  have hwf' : orderWF { s with contract_clock := fupdate s.contract_clock o.contract_id (some o.clock) } o = true :=
    (orderWF_books s _ o rfl).trans hwf
  obtain ⟨s4, hd⟩ := dispatch_ok { s with contract_clock := fupdate s.contract_clock o.contract_id (some o.clock) } o imo c hc hswf hwf'
  rw [hd]
  dsimp only
  obtain ⟨hcc4, hac4, hooo4, haqo4, hswf4, hmono4, hbi4⟩ := frame_dispatch hd
  have hc4 : s4.all_contracts o.contract_id = some c := by rw [hac4]; exact hc
  have hinv4 : BookInv (s4.book_states o.contract_id) := hbi4 _ hinv
  obtain ⟨bt, hgt⟩ := get_top_ok s4 o.contract_id c hc4 hinv4
  rw [hgt]
  dsimp only
  refine ⟨(check_book_top s4 bt).2.2, rfl, ?_⟩
  rw [(check_book_top_state s4 bt).1, hcc4]
  show fupdate s.contract_clock o.contract_id (some o.clock) o.contract_id = _
  rw [fupdate_self, hclk]

/-! ## C1: exact clock successor advances the contract clock by 1 -/

/-- C1 (amended).  An event whose clock is exactly `contract_clock + 1`, with
a valid status and well-formed fields, is applied and advances that
contract's clock to exactly its old value plus 1 — PROVIDED the per-contract
out-of-order stash is empty or the event is not recognised as the trader's
own.  (With a non-empty stash the matching-confirmation path replays every
stashed event first, which can move the clock far beyond `k + 1`; see the
counterexample.) -/
theorem C1_clock_advance (s : MState) (o : Order) (c : Contract) (k : Int)
    (hc : s.all_contracts o.contract_id = some c) (hswf : SWF s)
    (hcc : s.contract_clock o.contract_id = some k)
    (hclk : o.clock = k + 1)
    (hstat : statusValid o.status_type = true)
    (hwf : orderWF s o = true)
    (hinv : BookInv (s.book_states o.contract_id))
    (hstash : s.my_out_of_order_orders o.contract_id = [] ∨ isMyOrderB s o = false) :
    ∃ s2, handleOrder s o false = Except.ok (true, s2) ∧
      s2.contract_clock o.contract_id = some (k + 1) := by
  unfold handleOrder prologue
  rw [hc]
  dsimp only
  obtain ⟨b, s1, hio⟩ := is_my_order_ok s o hswf
  rw [hio]
  dsimp only
  obtain ⟨hcore, hswf1, hmono1⟩ := is_my_order_facts s o b s1 hio
  obtain ⟨hbk, hcc1, hac1, hooo1, harb1, hldc1, hbt1, hcp1, haqo1, hlt1, hpb1, htub1⟩ :=
    hcore
  have hc1 : s1.all_contracts o.contract_id = some c := by rw [hac1]; exact hc
  have hcc1' : s1.contract_clock o.contract_id = some k := by rw [hcc1]; exact hcc
  have hwf1 : orderWF s1 o = true := (orderWF_books s s1 o hbk).trans hwf
  have hinv1 : BookInv (s1.book_states o.contract_id) := by rw [hbk]; exact hinv
  cases hstashv : s1.my_out_of_order_orders o.contract_id with
  | nil =>
    dsimp only
    exact post_advances s1 o b _ _ c k hc1 (hswf1 hswf) hcc1' hclk hwf1 hinv1
  | cons f rest =>
    have hb : b = false := by
      rcases hstash with h0 | h0
      · rw [hooo1, h0] at hstashv
        exact absurd hstashv (by simp)
      · unfold isMyOrderB at h0
        rw [hio] at h0
        exact h0
    subst hb
    dsimp only
    rw [if_neg (show ¬ ((false : Bool) = true ∧ ¬ ((false : Bool) = true)) by simp)]
    exact post_advances s1 o false _ _ c k hc1 (hswf1 hswf) hcc1' hclk hwf1 hinv1

/-- Witness for C1 at a concrete input: a fresh insert with clock 5 against
contract clock 4 lands and moves the clock to 5. -/
theorem C1_witness :
    ∃ s2, handleOrder baseState (insOrder 5 5 true) false = Except.ok (true, s2) ∧
      s2.contract_clock 1 = some (4 + 1) :=
  C1_clock_advance baseState (insOrder 5 5 true) ⟨1, false⟩ 4
    rfl (fun h => Option.noConfusion h) rfl (by decide) rfl rfl
    (fun p hp => nomatch hp) (Or.inl rfl)

/-- The stash for the C1 counterexample: contract clock already 11, with own
inserts at clocks 12, 13, 14 buffered out of order. -/
def c1State : MState :=
  { baseState with
    contract_clock := fun n => if n = 1 then some 11 else none,
    my_out_of_order_orders := fun n =>
      if n = 1 then [insOrder 12 12 true, insOrder 13 13 true, insOrder 14 14 true]
      else [] }

def c1ResState : MState :=
  match handleOrder c1State (insOrder 12 12 true) false with
  | Except.ok (_, s2) => s2
  | Except.error _ => c1State

/-- C1 counterexample to the unqualified claim.  The incoming own insert has
clock 12 = contract_clock 11 + 1 and valid status 200, yet `handle_order`
(via the stash-confirmation replay) leaves the contract clock at 14, not 12:
the event's arrival triggers the replay of the whole stash. -/
theorem C1_counterexample :
    handleOrder c1State (insOrder 12 12 true) false =
      Except.ok (false, c1ResState) ∧
    c1State.contract_clock 1 = some 11 ∧
    (insOrder 12 12 true).clock = 11 + 1 ∧
    statusValid (insOrder 12 12 true).status_type = true ∧
    c1ResState.contract_clock 1 = some 14 := by
  exact ⟨rfl, rfl, by decide, rfl, rfl⟩

theorem post_stale (s : MState) (o : Order) (imo exists_ : Bool)
    (existing : Option BookOrder) (c : Contract) (k : Int)
    (hcc : s.contract_clock o.contract_id = some k)
    (hstale : o.clock ≤ k)
    (hsr : ¬ exists_ = true → o.status_type = 201 → o.status_reason.isSome = true) :
    handleOrderPost s o imo exists_ existing c = Except.ok (false, s) := by
  unfold handleOrderPost
  dsimp only
  rw [hcc]
  dsimp only
  by_cases hgate : o.clock ≤ k ∧ imo = true ∧ ¬ o.hasMpid = true
  · rw [if_pos hgate]
  · rw [if_neg hgate]
    rw [if_neg (show ¬ (k + 1 ≠ o.clock ∧ k < o.clock) by rintro ⟨-, h2⟩; omega)]
    dsimp only
    rw [if_pos (show k + 1 ≠ o.clock by omega)]
    by_cases haq : ¬ s.action_queue_open = true
    · rw [if_pos haq]
      by_cases h1 : ¬ exists_ = true ∧ o.status_type = 203
      · rw [if_pos h1]
      · rw [if_neg h1]
        by_cases h2 : (exists_ && (match existing with
            | some ex => ex.hasMpid
            | none => false) && ! o.hasMpid) = true
        · rw [if_pos h2]
        · rw [if_neg h2]
          by_cases h3 : ¬ exists_ = true ∧ o.status_type = 201
          · rw [if_pos h3]
            obtain ⟨r, hr⟩ := Option.isSome_iff_exists.mp (hsr h3.1 h3.2)
            rw [hr]
          · rw [if_neg h3]
    · rw [if_neg haq]

/-! ## C2: stale events leave the book untouched -/

/-- C2 (amended).  An event whose clock is at most the contract's clock is
ignored and the Book Store is left untouched — PROVIDED the out-of-order
stash is empty or the event is not recognised as the trader's own (a stale
own event arriving against a non-empty stash replays the stash into the
book; see the counterexample), and provided a status-201 event carries its
`status_reason` (the unguarded subscript on line 698 raises otherwise). -/
theorem C2_stale_no_book_change (s : MState) (o : Order) (c : Contract) (k : Int)
    (hc : s.all_contracts o.contract_id = some c) (hswf : SWF s)
    (hcc : s.contract_clock o.contract_id = some k)
    (hstale : o.clock ≤ k)
    (hsr : o.status_type = 201 → o.status_reason.isSome = true)
    (hstash : s.my_out_of_order_orders o.contract_id = [] ∨ isMyOrderB s o = false) :
    ∃ s2, handleOrder s o false = Except.ok (false, s2) ∧
      s2.book_states = s.book_states := by
  unfold handleOrder prologue
  rw [hc]
  dsimp only
  obtain ⟨b, s1, hio⟩ := is_my_order_ok s o hswf
  rw [hio]
  dsimp only
  obtain ⟨hcore, hswf1, hmono1⟩ := is_my_order_facts s o b s1 hio
  obtain ⟨hbk, hcc1, hac1, hooo1, harb1, hldc1, hbt1, hcp1, haqo1, hlt1, hpb1, htub1⟩ :=
    hcore
  have hcc1' : s1.contract_clock o.contract_id = some k := by rw [hcc1]; exact hcc
  cases hstashv : s1.my_out_of_order_orders o.contract_id with
  | nil =>
    dsimp only
    exact ⟨s1, post_stale s1 o b _ _ c k hcc1' hstale (fun _ h => hsr h), hbk⟩
  | cons f rest =>
    have hb : b = false := by
      rcases hstash with h0 | h0
      · rw [hooo1, h0] at hstashv
        exact absurd hstashv (by simp)
      · unfold isMyOrderB at h0
        rw [hio] at h0
        exact h0
    subst hb
    dsimp only
    rw [if_neg (show ¬ ((false : Bool) = true ∧ ¬ ((false : Bool) = true)) by simp)]
    exact ⟨s1, post_stale s1 o false _ _ c k hcc1' hstale (fun _ h => hsr h), hbk⟩

/-- Witness for C2: a stale insert (clock 3 against contract clock 4) is
dropped without touching the book. -/
theorem C2_witness :
    ∃ s2, handleOrder baseState (insOrder 9 3 true) false = Except.ok (false, s2) ∧
      s2.book_states = baseState.book_states :=
  C2_stale_no_book_change baseState (insOrder 9 3 true) ⟨1, false⟩ 4
    rfl (fun h => Option.noConfusion h) rfl (by decide) (by decide) (Or.inl rfl)

/-- Contract clock 7 with one own insert (clock 8) stashed out of order:
fixture for the C2 and C4 counterexamples and the C4 witness. -/
def c2State : MState :=
  { baseState with
    contract_clock := fun n => if n = 1 then some 7 else none,
    my_out_of_order_orders := fun n => if n = 1 then [insOrder 8 8 true] else [] }

def c2ResState : MState :=
  match handleOrder c2State (insOrder 3 3 true) false with
  | Except.ok (_, s2) => s2
  | Except.error _ => c2State

/-- C2 counterexample to the unqualified claim.  A stale own event (clock 3,
contract clock 7) arriving while clock-8 sits in the stash makes
`handle_order` replay the stash: the book GAINS the stashed entry at mid 8,
so a clock ≤ contract_clock event did mutate the Book Store. -/
theorem C2_counterexample :
    handleOrder c2State (insOrder 3 3 true) false =
      Except.ok (false, c2ResState) ∧
    c2State.contract_clock 1 = some 7 ∧
    (insOrder 3 3 true).clock ≤ 7 ∧
    c2State.book_states 1 = [] ∧
    (alookup (c2ResState.book_states 1) 8).isSome = true := by
  exact ⟨rfl, rfl, by decide, rfl, rfl⟩

/-! ## C4: the out-of-order stash transition table -/

/-- C4 (amended).  With the stash non-empty (first entry `f`) and an own
event arriving, `handle_order` follows this table — note the direction of
the first comparison is the REVERSE of "C < F is ignored": (1) F < C with a
gap over 10 replays the whole stash and forces a reload; (2) F < C with a
gap of at most 10 is the "still catching up" case and falls through to
normal processing; (3) C = F with mismatched status or mid clears the stash
without replaying and forces a reload; (4) C = F with matching status and
mid replays the WHOLE stash (not just the confirmed head); (5) C = last+1
appends to the stash; (6) any other relation (including C < F) replays the
stash and forces a reload. -/
theorem C4_stash_table (s : MState) (o : Order) (c : Contract)
    (f : Order) (rest : List Order) (s1 : MState) (ex : Option BookOrder)
    (hc : s.all_contracts o.contract_id = some c)
    (hio : is_my_order s o = Except.ok (true, s1))
    (hstash : s1.my_out_of_order_orders o.contract_id = f :: rest)
    (hex : alookup (s1.book_states o.contract_id) o.mid = ex) :
    (f.clock < o.clock → o.clock - f.clock > 10 →
      handleOrder s o false =
        stashResolve s1 o true ex.isSome ex c (f :: rest) true false) ∧
    (f.clock < o.clock → ¬ o.clock - f.clock > 10 →
      handleOrder s o false = handleOrderPost s1 o true ex.isSome ex c) ∧
    (f.clock = o.clock → f.hasMpid = true →
      (f.status_type ≠ o.status_type ∨ f.mid ≠ o.mid) →
      handleOrder s o false =
        stashResolve s1 o true ex.isSome ex c (f :: rest) false false) ∧
    (f.clock = o.clock → f.hasMpid = true →
      f.status_type = o.status_type → f.mid = o.mid →
      handleOrder s o false =
        stashResolve s1 o true ex.isSome ex c (f :: rest) true true) ∧
    (¬ f.clock < o.clock → f.clock ≠ o.clock →
      (rest.getLastD f).clock + 1 = o.clock →
      handleOrder s o false = Except.ok (false, { s1 with my_out_of_order_orders := fupdate s1.my_out_of_order_orders o.contract_id ((f :: rest) ++ [o]) })) ∧
    (¬ f.clock < o.clock → f.clock ≠ o.clock →
      (rest.getLastD f).clock + 1 ≠ o.clock →
      handleOrder s o false =
        stashResolve s1 o true ex.isSome ex c (f :: rest) true false) := by
  unfold handleOrder prologue
  rw [hc]
  dsimp only
  rw [hio]
  dsimp only
  rw [hex, hstash]
  dsimp only
  rw [if_pos (show (true : Bool) = true ∧ ¬ ((false : Bool) = true) from
    ⟨rfl, fun h => nomatch h⟩)]
  refine ⟨?_, ?_, ?_, ?_, ?_, ?_⟩
  · intro h1 h2
    rw [if_pos h1, if_pos h2]
  · intro h1 h2
    rw [if_pos h1, if_neg h2]
  · intro h1 hm hne
    rw [if_neg (show ¬ f.clock < o.clock by omega), if_pos h1,
      if_neg (not_not_intro hm), if_pos hne]
  · intro h1 hm hst hmid
    rw [if_neg (show ¬ f.clock < o.clock by omega), if_pos h1,
      if_neg (not_not_intro hm),
      if_neg (show ¬ (f.status_type ≠ o.status_type ∨ f.mid ≠ o.mid) by
        simp [hst, hmid])]
  · intro h1 h2 h3
    rw [if_neg h1, if_neg h2, if_pos h3]
  · intro h1 h2 h3
    rw [if_neg h1, if_neg h2, if_neg h3]

/-- The state after `is_my_order`'s side effects on the C4 fixture. -/
def c4S1 : MState :=
  match is_my_order c2State (insOrder 3 3 true) with
  | Except.ok (_, s) => s
  | Except.error _ => c2State

/-- Witness for C4 at a concrete input, exercising row (6): an own event
with clock 3 against a stash whose only entry has clock 8 (so C < F) goes to
the replay-and-reload resolution. -/
theorem C4_witness :
    handleOrder c2State (insOrder 3 3 true) false =
      stashResolve c4S1 (insOrder 3 3 true) true
        (alookup (c4S1.book_states 1) 3).isSome (alookup (c4S1.book_states 1) 3)
        ⟨1, false⟩ [insOrder 8 8 true] true false :=
  (C4_stash_table c2State (insOrder 3 3 true) ⟨1, false⟩
    (insOrder 8 8 true) [] c4S1 (alookup (c4S1.book_states 1) 3)
    rfl rfl rfl rfl).2.2.2.2.2 (by decide) (by decide) (by decide)

def c4ResState : MState :=
  match handleOrder c2State (insOrder 2 2 true) false with
  | Except.ok (_, s2) => s2
  | Except.error _ => c2State

/-- C4 counterexample to the claimed table.  The claim's first row says an
own event with C < F is "ignored with no state change".  With C = 2 and
F = 8 the run instead clears the stash, replays it into the book (mid 8
appears), and queues a book reload — the state changes substantially. -/
theorem C4_counterexample :
    handleOrder c2State (insOrder 2 2 true) false =
      Except.ok (false, c4ResState) ∧
    (insOrder 2 2 true).clock < (insOrder 8 8 true).clock ∧
    c2State.my_out_of_order_orders 1 = [insOrder 8 8 true] ∧
    c4ResState.my_out_of_order_orders 1 = [] ∧
    c4ResState.async_reloading_books 1 = true ∧
    (alookup (c4ResState.book_states 1) 8).isSome = true := by
  exact ⟨rfl, by decide, rfl, rfl, rfl, rfl⟩

/-! ## C5: out-of-order delivery does not converge -/

def c5Res675 : MState :=
  match deliverOrders baseState
      [insOrder 6 6 true, insOrder 7 7 true, insOrder 5 5 true] with
  | Except.ok s => s
  | Except.error _ => baseState

def c5Res567 : MState :=
  match deliverOrders baseState
      [insOrder 5 5 true, insOrder 6 6 true, insOrder 7 7 true] with
  | Except.ok s => s
  | Except.error _ => baseState

def c5Res5 : MState :=
  match deliverOrders baseState [insOrder 5 5 true] with
  | Except.ok s => s
  | Except.error _ => baseState

/-- C5 counterexample.  From contract clock 4, delivering own inserts with
clocks [6,7,5] does NOT leave the Book Store in the state reached by
delivering [5,6,7]: the in-order run books all three mids, while the
out-of-order run books only mid 5 (mid 6 never lands). -/
theorem C5_counterexample :
    deliverOrders baseState
      [insOrder 6 6 true, insOrder 7 7 true, insOrder 5 5 true] =
        Except.ok c5Res675 ∧
    deliverOrders baseState
      [insOrder 5 5 true, insOrder 6 6 true, insOrder 7 7 true] =
        Except.ok c5Res567 ∧
    (alookup (c5Res567.book_states 1) 6).isSome = true ∧
    (alookup (c5Res675.book_states 1) 6).isSome = false ∧
    c5Res675.book_states 1 ≠ c5Res567.book_states 1 := by
  refine ⟨rfl, rfl, rfl, rfl, fun h => ?_⟩
  have h6 : (alookup (c5Res675.book_states 1) 6).isSome = true := by rw [h]; rfl
  exact absurd h6 (by decide)

/-- C5 (amended).  What the [6,7,5] delivery actually does: 6 and 7 are
stashed; the confirming duplicate 5 hits the "stashed order is also
out-of-order" row, so the stash is replayed — but each replayed event is
still ahead of the clock and merely re-stashes itself — then the stash is
dropped and a reload of the contract is queued; finally 5 itself lands.  The
book therefore equals that of delivering [5] alone, with the reload flag set
(the in-order run sets no reload flag), and recovery is delegated to the
queued book snapshot, not achieved by the replay. -/
theorem C5_out_of_order_divergence :
    c5Res675.book_states 1 = c5Res5.book_states 1 ∧
    c5Res675.contract_clock 1 = some 5 ∧
    c5Res675.my_out_of_order_orders 1 = [] ∧
    c5Res675.async_reloading_books 1 = true ∧
    c5Res567.async_reloading_books 1 = false ∧
    c5Res567.contract_clock 1 = some 7 := by
  exact ⟨rfl, rfl, rfl, rfl, rfl, rfl⟩

theorem replace_fill_size_flag (o : Order) (stored : BookOrder) (fs : Int)
    (hfs : o.filled_size = some fs) (hpos : 0 < fs) (hsz : 0 < stored.size)
    (hneg : stored.size - fs < 0) : (replace_fill_size o stored).2 = true := by
  unfold replace_fill_size
  rw [hfs]
  dsimp only
  rw [if_pos ⟨hpos, hsz⟩]
  dsimp only
  rw [if_pos hneg]
  dsimp only
  split_ifs <;> rfl

theorem handle_book_state_update (s : MState) (o : Order) (stored bo : BookOrder)
    (hstored : alookup (s.book_states o.contract_id) o.mid = some stored)
    (hmid : bo.mid = o.mid)
    (hhm : bo.hasMpid = stored.hasMpid)
    (hcl : ¬ bo.clock < stored.clock) :
    alookup ((handle_book_state s o.contract_id bo).book_states o.contract_id) o.mid
      = some bo := by
  unfold handle_book_state
  dsimp only
  rw [hmid, hstored]
  dsimp only
  rw [if_neg hcl]
  dsimp only
  rw [fupdate_self]
  rw [← hhm]
  rw [alookup_ainsert_self, ← hmid]

/-! ## C6: replace semantics for fills -/

/-- C6.  A fill (or cancel/replace) event with a positive `filled_size`
against a stored entry with positive size and non-decreasing clock: the new
size is the stored size minus the filled size, floored at 0; a negative
difference flags a book reload; a resulting size of 0 removes the entry and
flags a reload unless the status reason is the fill-completion code 52; a
positive resulting size updates the entry's size and clock in place. -/
theorem C6_replace_semantics (s : MState) (o : Order) (c : Contract)
    (stored : BookOrder) (fs sr : Int)
    (hstat : o.status_type = 201 ∨ o.status_type = 204)
    (hc : s.all_contracts o.contract_id = some c) (hswf : SWF s)
    (hstored : alookup (s.book_states o.contract_id) o.mid = some stored)
    (hmid : stored.mid = o.mid)
    (hclk : stored.clock ≤ o.clock) (hszpos : 0 < stored.size)
    (hfs : o.filled_size = some fs) (hpos : 0 < fs)
    (hsr : o.status_reason = some sr) :
    ∃ s2, replace_existing_order s o = Except.ok s2 ∧
      (stored.size - fs < 0 → s2.async_reloading_books o.contract_id = true) ∧
      (max (stored.size - fs) 0 = 0 →
        alookup (s2.book_states o.contract_id) o.mid = none ∧
        (sr ≠ 52 → s2.async_reloading_books o.contract_id = true)) ∧
      (0 < max (stored.size - fs) 0 →
        alookup (s2.book_states o.contract_id) o.mid =
          some { stored with size := max (stored.size - fs) 0, clock := o.clock }) := by
  unfold replace_existing_order
  rw [if_neg (not_not_intro hstat)]
  rw [if_pos (show (alookup (s.book_states o.contract_id) o.mid).isSome = true by
    rw [hstored]; rfl)]
  dsimp only
  unfold replace_body
  dsimp only
  rw [hstored]
  dsimp only
  rw [hc]
  dsimp only
  rw [if_pos hclk]
  have hval : (replace_fill_size o stored).1 = max (stored.size - fs) 0 :=
    replace_fill_size_val o stored fs hfs hpos hszpos
  rw [hval]
  rw [if_pos (show max (stored.size - fs) 0 ≤ stored.size by
    rcases le_or_lt (stored.size - fs) 0 with h | h
    · rw [max_eq_right h]; omega
    · rw [max_eq_left (le_of_lt h)]; omega)]
  by_cases hz : max (stored.size - fs) 0 = 0
  · rw [if_pos hz]
    try dsimp only
    rw [hsr]
    try dsimp only
    have hbookgone : ∀ t : MState, t.book_states = (remove_order s o).book_states →
        alookup (t.book_states o.contract_id) o.mid = none := by
      intro t ht
      obtain ⟨-, -, -, -, -, hbkr, -, -, -⟩ := remove_order_facts s o
      rw [ht, hbkr, fupdate_self]
      exact alookup_aerase_self _ _
    by_cases h52 : sr ≠ 52
    · rw [if_pos h52]
      rw [if_pos (show (true : Bool) = true from rfl)]
      obtain ⟨b2, s2, hio2⟩ := is_my_order_ok
        (queue_reload_books (remove_order s o) o.contract_id) o
        (SWF_queue _ _ (SWF_remove _ _ hswf))
      rw [hio2]
      dsimp only
      obtain ⟨⟨hbk2, _, _, _, harb2, _, _, _, _, _, _, _⟩, -, -⟩ :=
        is_my_order_facts _ o b2 s2 hio2
      obtain ⟨-, -, hbkq, -, -, -, -, -, harbq⟩ :=
        queue_reload_books_facts (remove_order s o) o.contract_id
      have hflag : s2.async_reloading_books o.contract_id = true := by
        rw [harb2]; exact harbq
      refine ⟨s2, rfl, fun _ => hflag, fun _ => ⟨?_, fun _ => hflag⟩, fun h0 => absurd hz (by omega)⟩
      exact hbookgone s2 (by rw [hbk2, hbkq])
    · rw [if_neg h52]
      cases hnb : (replace_fill_size o stored).2 with
      | false =>
        rw [if_neg (show ¬ ((false : Bool) = true) by simp)]
        obtain ⟨b2, s2, hio2⟩ := is_my_order_ok (remove_order s o) o
          (SWF_remove _ _ hswf)
        rw [hio2]
        dsimp only
        obtain ⟨⟨hbk2, _, _, _, harb2, _, _, _, _, _, _, _⟩, -, -⟩ :=
          is_my_order_facts _ o b2 s2 hio2
        refine ⟨s2, rfl, ?_, fun _ => ⟨hbookgone s2 hbk2, fun h => absurd h h52⟩,
          fun h0 => absurd hz (by omega)⟩
        intro hneg
        exact absurd (hnb.symm.trans
          (replace_fill_size_flag o stored fs hfs hpos hszpos hneg)) (by simp)
      | true =>
        rw [if_pos (show (true : Bool) = true from rfl)]
        obtain ⟨b2, s2, hio2⟩ := is_my_order_ok
          (queue_reload_books (remove_order s o) o.contract_id) o
          (SWF_queue _ _ (SWF_remove _ _ hswf))
        rw [hio2]
        dsimp only
        obtain ⟨⟨hbk2, _, _, _, harb2, _, _, _, _, _, _, _⟩, -, -⟩ :=
          is_my_order_facts _ o b2 s2 hio2
        obtain ⟨-, -, hbkq, -, -, -, -, -, harbq⟩ :=
          queue_reload_books_facts (remove_order s o) o.contract_id
        have hflag : s2.async_reloading_books o.contract_id = true := by
          rw [harb2]; exact harbq
        refine ⟨s2, rfl, fun _ => hflag, fun _ => ⟨?_, fun _ => hflag⟩,
          fun h0 => absurd hz (by omega)⟩
        exact hbookgone s2 (by rw [hbk2, hbkq])
  · rw [if_neg hz]
    try dsimp only
    have hupd : alookup ((handle_book_state s o.contract_id
        { stored with size := max (stored.size - fs) 0, clock := o.clock }).book_states
          o.contract_id) o.mid =
        some { stored with size := max (stored.size - fs) 0, clock := o.clock } :=
      handle_book_state_update s o stored _ hstored hmid rfl (by dsimp only; omega)
    have hneg0 : ¬ stored.size - fs < 0 := by
      intro hneg
      exact hz (max_eq_right (by omega))
    obtain ⟨-, -, -, -, -, -, harbh, hmph, hcidh, -⟩ :=
      handle_book_state_facts s o.contract_id
        { stored with size := max (stored.size - fs) 0, clock := o.clock }
    cases hnb : (replace_fill_size o stored).2 with
    | false =>
      rw [if_neg (show ¬ ((false : Bool) = true) by simp)]
      obtain ⟨b2, s2, hio2⟩ := is_my_order_ok
        (handle_book_state s o.contract_id
          { stored with size := max (stored.size - fs) 0, clock := o.clock }) o
        (SWF_hbs _ _ _ hswf)
      rw [hio2]
      dsimp only
      obtain ⟨⟨hbk2, _, _, _, harb2, _, _, _, _, _, _, _⟩, -, -⟩ :=
        is_my_order_facts _ o b2 s2 hio2
      refine ⟨s2, rfl, fun hneg => absurd hneg hneg0,
        fun h => absurd h hz, fun _ => ?_⟩
      rw [hbk2]
      exact hupd
    | true =>
      rw [if_pos (show (true : Bool) = true from rfl)]
      obtain ⟨b2, s2, hio2⟩ := is_my_order_ok
        (queue_reload_books (handle_book_state s o.contract_id
          { stored with size := max (stored.size - fs) 0, clock := o.clock })
            o.contract_id) o
        (SWF_queue _ _ (SWF_hbs _ _ _ hswf))
      rw [hio2]
      dsimp only
      obtain ⟨⟨hbk2, _, _, _, harb2, _, _, _, _, _, _, _⟩, -, -⟩ :=
        is_my_order_facts _ o b2 s2 hio2
      obtain ⟨-, -, hbkq, -, -, -, -, -, harbq⟩ :=
        queue_reload_books_facts (handle_book_state s o.contract_id
          { stored with size := max (stored.size - fs) 0, clock := o.clock })
            o.contract_id
      refine ⟨s2, rfl, fun hneg => absurd hneg hneg0,
        fun h => absurd h hz, fun _ => ?_⟩
      rw [hbk2, hbkq]
      exact hupd

/-- Stored book entry for the C6 witness: contract 1, price 100, size 5,
bid, clock 4, mid 5, carrying the trader's mpid. -/
def c6Stored : BookOrder := ⟨1, 100, 5, false, 4, 5, true⟩

def c6State : MState :=
  { baseState with
    book_states := fun n => if n = 1 then [(5, c6Stored)] else [] }

/-- A partial fill of 2 against the size-5 entry at mid 5, clock 6. -/
def c6Order : Order :=
  { insOrder 5 6 true with status_type := 201, filled_size := some 2, filled_price := some 100, status_reason := some 52, size := 3 }

/-- Witness for C6 at a concrete input: filling 2 of 5 updates the entry in
place to size 3 with the event's clock. -/
theorem C6_witness :
    ∃ s2, replace_existing_order c6State c6Order = Except.ok s2 ∧
      alookup (s2.book_states 1) 5 =
        some { c6Stored with size := max (5 - 2) 0, clock := 6 } := by
  obtain ⟨s2, hok, -, -, hupd⟩ := C6_replace_semantics c6State c6Order ⟨1, false⟩
    c6Stored 2 52 (Or.inl rfl) rfl (fun h => Option.noConfusion h) rfl rfl
    (by decide) (by decide) rfl (by decide) rfl
  exact ⟨s2, hok, hupd (by decide)⟩

/-! ## C3: heartbeat tick fault -/

/-- C3 counterexample.  The claim says heartbeats with ticks [100, 101, 103]
raise a hard fault on the third, because ticks must increase by exactly 1.
Delivering exactly that sequence (stable run id), the third heartbeat is
accepted: `heartbeat_action` only raises when ticks fail to strictly
increase, so the skipped tick 102 is not a fault. -/
theorem heartbeat_skip_not_fault :
    (heartbeatCheck
      (heartbeatCheck (heartbeatCheck none ⟨100, 1, 0⟩).2 ⟨101, 1, 0⟩).2
      ⟨103, 1, 0⟩).1 ≠ HBOutcome.fault ∧
    (103 : Int) ≠ 101 + 1 := by decide

/-- C3 amended: `heartbeat_action` raises the hard fault exactly when a
heartbeat's ticks fail to strictly increase over the previous heartbeat
(`self.last_heartbeat['ticks'] >= action['ticks']`, line 1558); a tick gap
with increasing ticks is accepted. -/
theorem heartbeat_fault_iff (lh a : Heartbeat) :
    (heartbeatCheck (some lh) a).1 = HBOutcome.fault ↔ a.ticks ≤ lh.ticks := by
  simp only [heartbeatCheck]
  split
  · simp only [true_iff]
    omega
  · split <;> simp <;> omega

/-! ## C7: book-top cross-validation -/

/-- C7: `check_book_top` on a top sharing the stored top's clock but with a
bid or ask differing under the same-or-zero-or-absent equivalence leaves the
state (and hence the stored `book_top`) unchanged and reports a mismatch
(the code only logs a warning; the function is total, so no exception); when
the clocks differ, the top with the higher clock ends up stored. -/
theorem check_book_top_spec (s : MState) (nt ot : BookTop)
    (hold : s.book_top nt.contract_id = some ot) :
    (ot.clock = nt.clock →
      ¬ (is_same_0_or_None nt.ask ot.ask = true ∧ is_same_0_or_None nt.bid ot.bid = true) →
      (check_book_top s nt).2.2 = s ∧ (check_book_top s nt).2.1 = false) ∧
    (ot.clock < nt.clock →
      (check_book_top s nt).2.2.book_top nt.contract_id = some nt) ∧
    (nt.clock < ot.clock →
      (check_book_top s nt).2.2 = s ∧
      (check_book_top s nt).2.2.book_top nt.contract_id = some ot) := by
  refine ⟨?_, ?_, ?_⟩
  · intro heq hmis
    have hcases : is_same_0_or_None nt.ask ot.ask = false ∨
        is_same_0_or_None nt.bid ot.bid = false := by
      rcases Bool.eq_false_or_eq_true (is_same_0_or_None nt.ask ot.ask) with ha | ha
      · rcases Bool.eq_false_or_eq_true (is_same_0_or_None nt.bid ot.bid) with hb | hb
        · exact absurd ⟨ha, hb⟩ hmis
        · exact Or.inr hb
      · exact Or.inl ha
    have h1 : ¬ ot.clock < nt.clock := by omega
    have h2 : ¬ ot.clock > nt.clock := by omega
    simp only [check_book_top, hold, if_neg h1, if_neg h2]
    rcases hcases with ha | ha <;> simp [ha]
  · intro hlt
    simp only [check_book_top, hold, if_pos hlt]
    simp [fupdate_self]
  · intro hgt
    have h1 : ¬ ot.clock < nt.clock := by omega
    have h2 : ot.clock > nt.clock := hgt
    simp [check_book_top, hold, if_neg h1, if_pos h2]

/-- Stored top for the C7 witness: contract 1, clock 10, bid 100, ask 105. -/
def c7State : MState :=
  { baseState with
    book_top := fun n => if n = 1 then some ⟨1, 10, some 100, some 105⟩ else none }

/-- Witness for C7 at a concrete input: an equal-clock top whose bid differs
(99 vs 100) keeps the stored value and only reports the mismatch. -/
theorem C7_witness :
    (check_book_top c7State ⟨1, 10, some 99, some 105⟩).2.2 = c7State ∧
    (check_book_top c7State ⟨1, 10, some 99, some 105⟩).2.1 = false :=
  (check_book_top_spec c7State ⟨1, 10, some 99, some 105⟩ ⟨1, 10, some 100, some 105⟩
    rfl).1 rfl (by decide)

/-! ## C8/C9: basis recomputation -/

/-- SPEC-side basis step, written from the spec's words, NOT from the code:
the running basis is reset to 0 whenever the running size CROSSES zero
(changes sign or lands on it).  Compare with `basisStep`, which resets only
when the running size lands exactly on 0. -/
def basisStepSpec (acc : Int × Int) (t : Trade) : Int × Int :=
  let pos := acc.1
  let basis := acc.2
  let (basis, pos2) :=
    if t.sideBid then (basis + t.fee - t.rebate + t.premium, pos + t.filled_size)
    else (basis + t.fee - t.rebate - t.premium, pos - t.filled_size)
  if pos2 = 0 ∨ (pos < 0 ∧ 0 < pos2) ∨ (pos2 < 0 ∧ 0 < pos) then (pos2, 0)
  else (pos2, basis)

/-- SPEC-side fold over a chronological trade list. -/
def basisFoldSpec (trades : List Trade) : Int × Int :=
  trades.foldl basisStepSpec (0, 0)

/-- C8 (amended).  When the recomputed size agrees with the tracked position,
`process_basis_trades` stores the basis computed by the chronological fold
`basisFold`, whose per-trade step is: a buy adds `fee - rebate + premium` to
the basis and `filled_size` to the size, a sell adds `fee - rebate - premium`
and subtracts `filled_size` — and the running basis is reset to 0 exactly
when the running size LANDS ON zero (not whenever it crosses zero; see the
counterexample for a sign-crossing that keeps its basis). -/
theorem C8_basis_recompute (s : MState) (contract_id : Nat) (p : Position)
    (trades : List Trade)
    (hmatch : tradesMatchContract contract_id trades.reverse = true)
    (hsz : (basisFold trades.reverse).1 = p.size) :
    (∃ p2, process_basis_trades s contract_id p trades =
        Except.ok ({ s with contract_positions := fupdate s.contract_positions contract_id (some p2), to_update_basis := fupdate s.to_update_basis contract_id false }, trades.reverse) ∧
      p2.basis = some (basisFold trades.reverse).2 ∧ p2.size = p.size) ∧
    (∀ acc t, basisStep acc t =
      if t.sideBid = true then
        (if acc.1 + t.filled_size = 0 then ((0 : Int), (0 : Int))
         else (acc.1 + t.filled_size, acc.2 + t.fee - t.rebate + t.premium))
      else
        (if acc.1 - t.filled_size = 0 then ((0 : Int), (0 : Int))
         else (acc.1 - t.filled_size, acc.2 + t.fee - t.rebate - t.premium))) := by
  constructor
  · unfold process_basis_trades
    try dsimp only
    rw [if_neg (not_not_intro hmatch)]
    try dsimp only
    rw [if_neg (not_not_intro hsz)]
    refine ⟨_, rfl, rfl, ?_⟩
    show (if (basisFold trades.reverse).1 < 0 ∧ p.isLong = true then { p with isLong := false } else if (basisFold trades.reverse).1 ≥ 0 ∧ ¬ p.isLong = true then { p with isLong := true } else p).size = p.size
    split_ifs <;> rfl
  · intro acc t
    unfold basisStep
    dsimp only
    by_cases hb : t.sideBid = true
    · simp only [if_pos hb]
      try dsimp only
      split_ifs with h
      · rw [h]
      · rfl
    · simp only [if_neg hb]
      try dsimp only
      split_ifs with h
      · rw [h]
      · rfl

/-- Witness for C8 at a concrete input: a single buy (fee 5, rebate 1,
premium 10, size 2) against a size-2 position stores basis 5 - 1 + 10. -/
theorem C8_witness :
    ∃ p2, process_basis_trades baseState 1 ⟨2, none, true⟩ [⟨1, true, 5, 1, 10, 2⟩] =
        Except.ok ({ baseState with contract_positions := fupdate baseState.contract_positions 1 (some p2), to_update_basis := fupdate baseState.to_update_basis 1 false }, [⟨1, true, 5, 1, 10, 2⟩].reverse) ∧
      p2.basis = some (basisFold [⟨1, true, 5, 1, 10, 2⟩].reverse).2 ∧
      p2.size = (⟨2, none, true⟩ : Position).size :=
  (C8_basis_recompute baseState 1 ⟨2, none, true⟩ [⟨1, true, 5, 1, 10, 2⟩]
    (by decide) (by decide)).1

/-- C8 counterexample to "reset whenever the running size crosses zero".
Buy 2 then sell 3: the running size goes 2 → -1, crossing zero without
landing on it.  The code keeps the accumulated basis -10 and stores it; the
spec-side fold (reset on crossing) would store 0. -/
theorem C8_counterexample :
    basisFold [⟨1, true, 0, 0, 10, 2⟩, ⟨1, false, 0, 0, 20, 3⟩] = (-1, -10) ∧
    basisFoldSpec [⟨1, true, 0, 0, 10, 2⟩, ⟨1, false, 0, 0, 20, 3⟩] = (-1, 0) ∧
    ∃ s2 rest, process_basis_trades baseState 1 ⟨-1, none, false⟩
        [⟨1, false, 0, 0, 20, 3⟩, ⟨1, true, 0, 0, 10, 2⟩] = Except.ok (s2, rest) ∧
      s2.contract_positions 1 = some ⟨-1, some (-10), false⟩ := by
  refine ⟨by decide, by decide, ?_⟩
  exact ⟨_, _, rfl, rfl⟩

/-- C9 (amended).  Recomputation is deterministic in the trade-list VALUE:
feeding the same fetched list (a fresh copy, as a second fetch would produce)
to two successive calls stores the same position and returns the same
reversed list.  The claim as stated fails for the Python call pattern because
`trades.reverse()` mutates the caller's list in place, so a second call on
the same list object processes the trades in the opposite order; see the
counterexample. -/
theorem C9_recompute_idempotent (s : MState) (contract_id : Nat) (p : Position)
    (trades : List Trade) (s1 s2 : MState) (l1 l2 : List Trade)
    (h1 : process_basis_trades s contract_id p trades = Except.ok (s1, l1))
    (h2 : process_basis_trades s1 contract_id p trades = Except.ok (s2, l2)) :
    s2.contract_positions contract_id = s1.contract_positions contract_id ∧
    l2 = l1 := by
  unfold process_basis_trades at h1 h2
  dsimp only at h1 h2
  by_cases hm : tradesMatchContract contract_id trades.reverse = true
  case neg =>
    rw [if_pos hm] at h1
    exact absurd h1 (by simp)
  case pos =>
    rw [if_neg (not_not_intro hm)] at h1 h2
    try dsimp only at h1 h2
    by_cases hsz : (basisFold trades.reverse).1 ≠ p.size
    · rw [if_pos hsz] at h1 h2
      simp only [Except.ok.injEq, Prod.mk.injEq] at h1 h2
      obtain ⟨hs1, hl1⟩ := h1
      obtain ⟨hs2, hl2⟩ := h2
      subst hs1
      subst hs2
      exact ⟨rfl, hl2.symm.trans hl1⟩
    · rw [if_neg hsz] at h1 h2
      try dsimp only at h1 h2
      simp only [Except.ok.injEq, Prod.mk.injEq] at h1 h2
      obtain ⟨hs1, hl1⟩ := h1
      obtain ⟨hs2, hl2⟩ := h2
      subst hs1
      subst hs2
      refine ⟨?_, hl2.symm.trans hl1⟩
      dsimp only
      rw [fupdate_self, fupdate_self]

/-- Chronological unit trades for the C9 runs: buy (premium 10), sell
(premium 20, zeroing the position and resetting the basis), buy (premium
30). -/
def c9T1 : Trade := ⟨1, true, 0, 0, 10, 1⟩

def c9T2 : Trade := ⟨1, false, 0, 0, 20, 1⟩

def c9T3 : Trade := ⟨1, true, 0, 0, 30, 1⟩

def c9P : Position := ⟨1, none, true⟩

def c9S1 : MState :=
  match process_basis_trades baseState 1 c9P [c9T3, c9T2, c9T1] with
  | Except.ok (s, _) => s
  | Except.error _ => baseState

def c9L1 : List Trade :=
  match process_basis_trades baseState 1 c9P [c9T3, c9T2, c9T1] with
  | Except.ok (_, l) => l
  | Except.error _ => []

def c9S2 : MState :=
  match process_basis_trades c9S1 1 c9P [c9T3, c9T2, c9T1] with
  | Except.ok (s, _) => s
  | Except.error _ => c9S1

def c9L2 : List Trade :=
  match process_basis_trades c9S1 1 c9P [c9T3, c9T2, c9T1] with
  | Except.ok (_, l) => l
  | Except.error _ => []

/-- Witness for C9 at a concrete input: recomputing twice from the same
fetched list value stores the same position. -/
theorem C9_witness :
    c9S2.contract_positions 1 = c9S1.contract_positions 1 ∧ c9L2 = c9L1 :=
  C9_recompute_idempotent baseState 1 c9P [c9T3, c9T2, c9T1] c9S1 c9S2 c9L1 c9L2
    rfl rfl

def c9S2m : MState :=
  match process_basis_trades c9S1 1 c9P c9L1 with
  | Except.ok (s, _) => s
  | Except.error _ => c9S1

/-- C9 counterexample to idempotence under the Python call pattern.  The
first call reverses the caller's list in place (modelled by the returned
list) and stores basis 30; the second call, handed that same mutated list,
re-reverses it and stores basis 10 for the identical trade history. -/
theorem C9_counterexample :
    process_basis_trades baseState 1 c9P [c9T3, c9T2, c9T1] =
      Except.ok (c9S1, c9L1) ∧
    c9L1 = [c9T1, c9T2, c9T3] ∧
    process_basis_trades c9S1 1 c9P c9L1 = Except.ok (c9S2m, [c9T3, c9T2, c9T1]) ∧
    c9S1.contract_positions 1 = some ⟨1, some 30, true⟩ ∧
    c9S2m.contract_positions 1 = some ⟨1, some 10, true⟩ := by
  exact ⟨rfl, rfl, rfl, rfl, rfl⟩

end LedgerX
